import Mathlib

/-!
Verification of the drone-detection KNN backend (Go sources under `server/drone`,
`server/shazam`, `server/main.go`) against its natural-language specification.

Shallow embedding conventions:
* Go `float64` values are modelled as real numbers (`ℝ`); `int` loop indices as `ℕ`.
* Go slices are Lean `List`s; in-place mutation becomes a pure function returning
  the updated list.
* Go functions returning `(T, error)` are modelled as `Except String T`.
* Go maps with string keys are modelled as association lists.  Go map iteration
  order is unspecified; the model enumerates keys in first-insertion order, and
  every property proved below (sums, memberships, componentwise bounds) is
  invariant under permutation of that enumeration.
* File I/O and JSON (de)serialisation transport a list of prototypes unchanged;
  the model passes the list itself.
-/

noncomputable section

namespace DroneDetect

open scoped BigOperators

/-! ## Basic helpers shared by the drone package -/

/-- `clamp01` from `feature_extraction.go`: clamps a value to the `[0, 1]` range. -/
def clamp01 (x : ℝ) : ℝ :=
  if x < 0 then 0
  else if x > 1 then 1
  else x

/-- ASCII simple case folding of one character, as performed by Go's
`strings.EqualFold` on ASCII input (all category strings in this code base are
ASCII). -/
def goFoldChar (c : Char) : Char :=
  if 'A' ≤ c ∧ c ≤ 'Z' then Char.ofNat (c.toNat + 32) else c

/-- Go `strings.EqualFold` restricted to ASCII strings: equality under simple
case folding. -/
def goEqualFold (s t : String) : Bool :=
  s.data.map goFoldChar == t.data.map goFoldChar

/-! ## `AdaptiveThreshold` (feature_analysis.go) -/

/-- `AdaptiveThreshold` from `feature_analysis.go`: raises the base confidence
threshold according to the SNR band, then clamps the result to `[0.5, 0.9]`. -/
def AdaptiveThreshold (baseThreshold snrDb : ℝ) : ℝ :=
  let adjustment : ℝ :=
    if snrDb < 10 then 0.15
    else if snrDb < 20 then 0.10
    else if snrDb < 30 then 0.05
    else 0.0
  let adjustedThreshold := baseThreshold + adjustment
  if adjustedThreshold < 0.5 then 0.5
  else if adjustedThreshold > 0.9 then 0.9
  else adjustedThreshold

/-! ## Predictions and the drone decision (template_matcher.go) -/

/-- `PrototypeScore` (models.go): similarity of the query to one stored
prototype. -/
structure PrototypeScore where
  id : String
  distance : ℝ
  weight : ℝ
  source : String

/-- `Prediction` (models.go).  The presentation-only fields `Type`,
`Description`, `Metadata` and `ThreatAssessment` are derived string decorations
(via `derivePredictionType` / `ExtractThreatAssessment`) that no verified claim
mentions; they are omitted from the model. -/
structure Prediction where
  label : String
  category : String
  confidence : ℝ
  averageDist : ℝ
  support : ℕ
  topPrototypes : List PrototypeScore

/-- `DetermineDroneLikelyWithSNR` from `template_matcher.go`: the top prediction
must not be categorised (case-insensitively) as noise and must reach the
SNR-adjusted threshold; the SNR adjustment is skipped when `snrDb == 0.0`. -/
def DetermineDroneLikelyWithSNR (predictions : List Prediction)
    (baseThreshold snrDb : ℝ) : Bool :=
  match predictions with
  | [] => false
  | best :: _ =>
    if goEqualFold best.category "noise" then false
    else
      let threshold := if snrDb ≠ 0.0 then AdaptiveThreshold baseThreshold snrDb
                       else baseThreshold
      if best.confidence ≥ threshold then true else false

/-- `DetermineDroneLikely` from `template_matcher.go`. -/
def DetermineDroneLikely (predictions : List Prediction) (threshold : ℝ) : Bool :=
  DetermineDroneLikelyWithSNR predictions threshold 0.0

/-! ## Claim C1 -/

/-- A prediction whose category is `"NOISE"` in upper case: its category is
*not* the string `"noise"`, yet `strings.EqualFold` treats it as noise. -/
def upperNoisePred : Prediction :=
  { label := "ambient"
    category := "NOISE"
    confidence := 0.9
    averageDist := 0
    support := 1
    topPrototypes := [] }

/-! ## Prototypes, L2 normalisation and the feature scaler
(models.go, feature_extraction.go, feature_scaling.go) -/

/-- `Prototype` (models.go). `Metadata` is modelled as an association list. -/
structure Prototype where
  id : String
  label : String
  category : String
  description : String
  source : String
  features : List ℝ
  metadata : List (String × String)

/-- `NormaliseVector` / `NormaliseVectorInPlace` (feature_extraction.go):
rescales a vector to unit L2 length; a zero vector is returned unchanged. -/
def NormaliseVector (vector : List ℝ) : List ℝ :=
  let sumSquares := (vector.map (fun v => v * v)).sum
  if sumSquares = 0 then vector
  else vector.map (fun v => v * (1 / Real.sqrt sumSquares))

/-- `FeatureScaler` (feature_scaling.go). -/
structure FeatureScaler where
  mean : List ℝ
  stddev : List ℝ

/-- `FeatureScaler.Transform`: z-score standardisation; a vector whose length
does not match the scaler is returned unchanged. -/
def FeatureScaler.transform (fs : FeatureScaler) (features : List ℝ) : List ℝ :=
  if features.length ≠ fs.mean.length then features
  else (List.range features.length).map (fun i =>
    (features.getD i 0 - fs.mean.getD i 0) / fs.stddev.getD i 0)

/-- `NewFeatureScalerFromPrototypes` (feature_scaling.go): per-dimension mean,
then per-dimension standard deviation with divisor `n` (the prototype count),
replacing any standard deviation below `1e-10` by `1.0`.  The Go accumulation
loops over `prototypes` become `foldl`s of pointwise list addition. -/
def NewFeatureScalerFromPrototypes (prototypes : List Prototype) :
    Except String FeatureScaler :=
  match prototypes with
  | [] => .error "no prototypes provided"
  | p0 :: _ =>
    let featureCount := p0.features.length
    if featureCount = 0 then .error "prototypes have no features"
    else if prototypes.any (fun p => p.features.length ≠ featureCount) then
      .error "inconsistent feature dimensions"
    else
      let n : ℝ := prototypes.length
      let sums := prototypes.foldl
        (fun acc p => List.zipWith (· + ·) acc p.features)
        (List.replicate featureCount 0)
      let mean := sums.map (· / n)
      let sqsums := prototypes.foldl
        (fun acc p => List.zipWith (· + ·) acc
          (List.zipWith (fun x m => (x - m) * (x - m)) p.features mean))
        (List.replicate featureCount 0)
      let stddev := sqsums.map (fun s =>
        let sd := Real.sqrt (s / n)
        if sd < 1e-10 then 1 else sd)
      .ok { mean := mean, stddev := stddev }

/-! ## Go string helpers used by the loader (strings / path/filepath) -/

/-- Go `strings.HasSuffix`. -/
def goHasSuffix (s sfx : String) : Bool :=
  sfx.data.isSuffixOf s.data

/-- Go `strings.TrimSuffix`. -/
def goTrimSuffix (s sfx : String) : String :=
  if goHasSuffix s sfx then ⟨s.data.take (s.data.length - sfx.data.length)⟩
  else s

/-- Go `filepath.Ext`: the suffix of the final path element starting at its
final dot, or `""` when that element has no dot. -/
def goFilepathExt (path : String) : String :=
  let rev := path.data.reverse
  let pre := rev.takeWhile (fun c => (c != '.') && (c != '/'))
  match rev.drop pre.length with
  | '.' :: _ => ⟨'.' :: pre.reverse⟩
  | _ => ""

/-- The fallback path tried by `NewClassifierFromFile` when the primary
prototype file is missing: `<base>.example<ext>`. -/
def goFallbackPath (path : String) : String :=
  let ext := goFilepathExt path
  let base := goTrimSuffix path ext
  base ++ ".example" ++ ext

/-- Path resolution in `NewClassifierFromFile`: the primary path when readable,
otherwise the `.example` fallback path. -/
def resolveModelPath (primaryReadable : Bool) (path : String) : String :=
  if primaryReadable then path else goFallbackPath path

/-! ## The classifier store and its loader (template_matcher.go) -/

/-- `harmonicFeatureCount` (template_matcher.go). -/
def harmonicFeatureCount : ℕ := 3

/-- `featureWeights`, initialised in `init()` to 2048 ones (PANNS embedding
dimensionality). -/
def featureWeights : List ℝ := List.replicate 2048 1

/-- `Classifier` (template_matcher.go).  The mutex is concurrency-control only;
`labelMetadata` feeds the presentation-only `Description`/`Type`/threat fields
and is omitted together with them. -/
structure ClassifierState where
  prototypes : List Prototype
  k : ℕ
  usingExample : Bool
  modelPath : String
  labelCategory : List (String × String)
  featureScaler : Option FeatureScaler

/-- The per-prototype validation loop of `NewClassifierFromFile`: every
prototype must have features, a label, exactly `len(featureWeights) = 2048`
features, and at least `harmonicFeatureCount` features. -/
def validatePrototypes : List Prototype → Except String Unit
  | [] => .ok ()
  | p :: rest =>
    if p.features.length = 0 then
      .error ("prototype " ++ p.id ++ " has no features")
    else if p.label = "" then
      .error ("prototype " ++ p.id ++ " missing label")
    else if p.features.length ≠ featureWeights.length then
      .error ("prototype " ++ p.id ++ " has wrong feature count")
    else if p.features.length < harmonicFeatureCount then
      .error ("prototype " ++ p.id ++ " has insufficient harmonic features")
    else validatePrototypes rest

/-- The `labelCategory` map accumulated by the loader: first category wins per
label. -/
def buildLabelCategory (protos : List Prototype) : List (String × String) :=
  protos.foldl
    (fun acc p =>
      if (acc.lookup p.label).isSome then acc else acc ++ [(p.label, p.category)])
    []

/-- `NewClassifierFromFile` after the file has been read and parsed: `k` must
be positive, every prototype passes validation, the feature scaler is fitted
and applied (scale, then L2-normalise) only for non-2048-dimensional
prototypes (PANNS embeddings skip scaling; a scaler fit failure degrades to raw
features), `usingExample` is the `.example`-suffix test on the resolved path,
and `k` is capped at the prototype count. -/
def NewClassifierFromData (prototypes : List Prototype) (k : ℕ)
    (resolvedPath : String) : Except String ClassifierState :=
  if k = 0 then .error "invalid neighbour count"
  else
    match validatePrototypes prototypes with
    | .error e => .error e
    | .ok _ =>
      let scaled : Option FeatureScaler × List Prototype :=
        match prototypes with
        | [] => (none, prototypes)
        | p0 :: _ =>
          if p0.features.length = 2048 then (none, prototypes)
          else
            match NewFeatureScalerFromPrototypes prototypes with
            | .error _ => (none, prototypes)
            | .ok fs =>
              (some fs, prototypes.map (fun p =>
                { p with features := NormaliseVector (fs.transform p.features) }))
      let usingExample := goHasSuffix resolvedPath ".example"
      let modelPath := if usingExample then goTrimSuffix resolvedPath ".example"
                       else resolvedPath
      let kCapped := if prototypes.length ≠ 0 ∧ prototypes.length < k then
                       prototypes.length
                     else k
      .ok { prototypes := scaled.2
            k := kCapped
            usingExample := usingExample
            modelPath := modelPath
            labelCategory := buildLabelCategory prototypes
            featureScaler := scaled.1 }

/-- `SavePrototypesToFile`: the JSON array written to disk is the snapshot of
the in-memory prototypes (temp-file write plus atomic rename are I/O
mechanics). -/
def SavePrototypesToFile (c : ClassifierState) : List Prototype :=
  c.prototypes

/-- Association-list update used for `labelCategory[label] = category`:
overwrite the first matching key, else append. -/
def upsert : List (String × String) → String → String → List (String × String)
  | [], key, value => [(key, value)]
  | (k0, v0) :: rest, key, value =>
    if k0 = key then (k0, value) :: rest else (k0, v0) :: upsert rest key value

/-- `Classifier.AddPrototype` (template_matcher.go): rejects only prototypes
with no features; otherwise scales (when a scaler is present), L2-normalises,
defaults the `description` metadata key, appends to the store, updates the
label-category map and clears `usingExample`. -/
def AddPrototype (c : ClassifierState) (proto : Prototype) :
    Except String (ClassifierState × Prototype) :=
  if proto.features.length = 0 then .error "prototype has no features"
  else
    let scaledFeatures := match c.featureScaler with
      | some scaler => scaler.transform proto.features
      | none => proto.features
    let features := NormaliseVector scaledFeatures
    let metadataCopy :=
      if proto.description ≠ "" ∧ (proto.metadata.lookup "description").isNone then
        proto.metadata ++ [("description", proto.description)]
      else proto.metadata
    let proto' := { proto with features := features, metadata := metadataCopy }
    let labelCategory :=
      if proto'.label ≠ "" ∧ proto'.category ≠ "" then
        upsert c.labelCategory proto'.label proto'.category
      else c.labelCategory
    .ok ({ c with prototypes := c.prototypes ++ [proto']
                  labelCategory := labelCategory
                  usingExample := false },
         proto')

/-! ## Cosine similarity and `Predict` (template_matcher.go) -/

/-- The per-index weight lookup inside `cosineSimilarity` / `weightedDistance`:
`weights[i]` when in range, else `1.0`. -/
def weightAt (weights : List ℝ) (i : ℕ) : ℝ :=
  if i < weights.length then weights.getD i 1 else 1

/-- `cosineSimilarity` (template_matcher.go): weighted cosine similarity over
the first `min(len a, len b)` components, returning `0` when either weighted
norm vanishes. -/
def cosineSimilarity (a b weights : List ℝ) : ℝ :=
  let limit := min a.length b.length
  let dotProduct := ∑ i ∈ Finset.range limit,
    (a.getD i 0 * weightAt weights i) * (b.getD i 0 * weightAt weights i)
  let normA := ∑ i ∈ Finset.range limit,
    (a.getD i 0 * weightAt weights i) * (a.getD i 0 * weightAt weights i)
  let normB := ∑ i ∈ Finset.range limit,
    (b.getD i 0 * weightAt weights i) * (b.getD i 0 * weightAt weights i)
  if normA = 0 ∨ normB = 0 then 0
  else dotProduct / (Real.sqrt normA * Real.sqrt normB)

/-- The per-label accumulator of `Predict` (the `labelScores` map entry). -/
structure LabelScore where
  label : String
  weightSum : ℝ
  distSum : ℝ
  count : ℕ
  prototypes : List PrototypeScore

/-- One step of the neighbour-aggregation loop of `Predict`: add a neighbour's
weight, distance and prototype score to its label's accumulator (Go map update;
the model keeps entries in first-insertion order, all verified properties being
permutation-invariant). -/
def addNeighbor : List LabelScore → String → ℝ → ℝ → PrototypeScore →
    List LabelScore
  | [], lbl, dist, weight, ps => [⟨lbl, weight, dist, 1, [ps]⟩]
  | s :: rest, lbl, dist, weight, ps =>
    if s.label = lbl then
      { s with weightSum := s.weightSum + weight
               distSum := s.distSum + dist
               count := s.count + 1
               prototypes := s.prototypes ++ [ps] } :: rest
    else s :: addNeighbor rest lbl dist weight ps

/-- Placeholder prototype for the (never out-of-bounds) slice indexing of the
Go code. -/
def defaultProto : Prototype :=
  { id := "", label := "", category := "", description := "", source := ""
    features := [], metadata := [] }

/-- The comparator of the final `sort.Slice` over predictions: descending
confidence with a `1e-9` tolerance, ties broken by ascending average
distance. -/
def predLess (p q : Prediction) : Bool :=
  if |p.confidence - q.confidence| > 1e-9 then decide (q.confidence < p.confidence)
  else decide (p.averageDist < q.averageDist)

/-- The query scaling step of `Predict`: scale and L2-normalise when a scaler
is present and the query is not a 2048-dimensional PANNS embedding. -/
def predictScaled (c : ClassifierState) (features : List ℝ) : List ℝ :=
  match c.featureScaler with
  | some scaler =>
    if features.length ≠ 2048 then NormaliseVector (scaler.transform features)
    else features
  | none => features

/-- The effective neighbour count of `Predict`: `max(1, n)` when the store has
fewer than `k` prototypes, else `k`. -/
def predictK (c : ClassifierState) : ℕ :=
  if c.prototypes.length < c.k then max 1 c.prototypes.length else c.k

/-- The distance list of `Predict`: `1 − cosineSimilarity` against every
prototype, tagged with the prototype index. -/
def predictDistances (c : ClassifierState) (scaled : List ℝ) : List (ℕ × ℝ) :=
  (List.range c.prototypes.length).map (fun i =>
    (i, 1 - cosineSimilarity scaled
      ((c.prototypes.getD i defaultProto).features) featureWeights))

/-- The `k` nearest neighbours: the distance list sorted ascending (Go's
unstable `sort.Slice`, modelled as a mergesort on the same comparator — the
verified properties are permutation-invariant), truncated to `predictK`. -/
def predictTaken (c : ClassifierState) (scaled : List ℝ) : List (ℕ × ℝ) :=
  ((predictDistances c scaled).mergeSort (fun x y => decide (x.2 ≤ y.2))).take
    (predictK c)

/-- The accumulated total of the inverse-distance weights `1 / (d + 1e-9)` of
the taken neighbours. -/
def predictTotalWeight (c : ClassifierState) (scaled : List ℝ) : ℝ :=
  ((predictTaken c scaled).map (fun nb => 1 / (nb.2 + 1e-9))).sum

/-- One iteration of the neighbour loop of `Predict`. -/
def predictStep (c : ClassifierState) (acc : List LabelScore) (nb : ℕ × ℝ) :
    List LabelScore :=
  let proto := c.prototypes.getD nb.1 defaultProto
  let weight := 1 / (nb.2 + 1e-9)
  addNeighbor acc proto.label nb.2 weight ⟨proto.id, nb.2, weight, proto.source⟩

/-- The per-label aggregation (`labelScores`) of `Predict`. -/
def predictScores (c : ClassifierState) (scaled : List ℝ) : List LabelScore :=
  (predictTaken c scaled).foldl (predictStep c) []

/-- The prediction list built from the per-label scores, before the final
sort. -/
def predictPredictions (c : ClassifierState) (scaled : List ℝ) : List Prediction :=
  let totalWeight := predictTotalWeight c scaled
  (predictScores c scaled).map (fun s =>
    ({ label := s.label
       category := (c.labelCategory.lookup s.label).getD ""
       confidence := if 0 < totalWeight then s.weightSum / totalWeight else 0
       averageDist := if 0 < s.count then s.distSum / (s.count : ℝ) else 0
       support := s.count
       topPrototypes := s.prototypes } : Prediction))

/-- `Classifier.Predict` (template_matcher.go): errors only on an empty query;
scales and L2-normalises the query when a scaler is present and the query is
not 2048-dimensional (PANNS); computes `1 − cosineSimilarity` distances to
every prototype, keeps the `k` nearest, aggregates inverse-distance weights by
label and normalises them to confidences; returns the empty list for an empty
store or a vanishing total weight.  The Go locals become the named stages
above. -/
def Predict (c : ClassifierState) (features : List ℝ) :
    Except String (List Prediction) :=
  if features.length = 0 then .error "feature vector is empty"
  else
    let scaled := predictScaled c features
    if c.prototypes.length = 0 then .ok []
    else if predictTotalWeight c scaled = 0 then .ok []
    else .ok ((predictPredictions c scaled).mergeSort (fun p q => predLess p q))

/-! ## FFT (shazam/fft.go) -/

/-- Even-indexed elements (`complexArray[2*i]`). -/
def evenIdx : List ℂ → List ℂ
  | [] => []
  | [a] => [a]
  | a :: _ :: rest => a :: evenIdx rest

/-- Odd-indexed elements (`complexArray[2*i+1]`). -/
def oddIdx : List ℂ → List ℂ
  | [] => []
  | [_] => []
  | _ :: b :: rest => b :: oddIdx rest

/-- The twiddle factor `complex(cos(-2πk/N), sin(-2πk/N))`. -/
def twiddle (N k : ℕ) : ℂ :=
  ⟨Real.cos (-2 * Real.pi * k / N), Real.sin (-2 * Real.pi * k / N)⟩

/-- `recursiveFFT` (Cooley–Tukey radix-2).  The Go recursion halves the slice
length; the model uses structural fuel, which suffices because each recursive
call strictly shrinks the list (fuel `≥` the list length never runs out). -/
def recursiveFFTAux : ℕ → List ℂ → List ℂ
  | 0, l => l
  | fuel + 1, l =>
    if l.length ≤ 1 then l
    else
      let even := recursiveFFTAux fuel (evenIdx l)
      let odd := recursiveFFTAux fuel (oddIdx l)
      let N := l.length
      ((List.range (N / 2)).map (fun k =>
        even.getD k 0 + twiddle N k * odd.getD k 0)) ++
      ((List.range (N / 2)).map (fun k =>
        even.getD k 0 - twiddle N k * odd.getD k 0))

/-- `FFT` (shazam/fft.go): real input is lifted to complex numbers and handed
to the recursive Cooley–Tukey routine. -/
def FFT (input : List ℝ) : List ℂ :=
  recursiveFFTAux input.length (input.map (fun v => (v : ℂ)))

/-! ## Feature extraction (feature_extraction.go) -/

/-- `nextPowerOfTwo`: the doubling loop, with structural fuel `n` (the power
doubles past `n` well within `n` iterations). -/
def nextPowerOfTwoAux (n : ℕ) : ℕ → ℕ → ℕ
  | 0, power => power
  | fuel + 1, power =>
    if power < n then nextPowerOfTwoAux n fuel (power * 2) else power

/-- `nextPowerOfTwo` (feature_extraction.go). -/
def nextPowerOfTwo (n : ℕ) : ℕ :=
  if n = 0 then 1 else nextPowerOfTwoAux n n 1

/-- `applyHannWindow` (feature_extraction.go). -/
def applyHannWindow (buffer : List ℝ) : List ℝ :=
  if buffer.length ≤ 1 then buffer
  else buffer.mapIdx (fun i v =>
    v * (0.5 * (1 - Real.cos ((2 * Real.pi * (i : ℝ)) / ((buffer.length : ℝ) - 1)))))

/-- `computeSpectrum` (feature_extraction.go): zero-pad to the next power of
two, Hann-window, FFT, then keep magnitudes and bin frequencies of the first
`fftSize/2` bins. -/
def computeSpectrum (samples : List ℝ) (sampleRate : ℤ) : List ℝ × List ℝ :=
  let fftSize := nextPowerOfTwo samples.length
  let buffer := samples ++ List.replicate (fftSize - samples.length) 0
  let windowed := applyHannWindow buffer
  let fft := FFT windowed
  let binCount := fftSize / 2
  let magnitude := (List.range binCount).map (fun i => Complex.abs (fft.getD i 0))
  let freqs := (List.range binCount).map (fun i =>
    (i : ℝ) * (sampleRate : ℝ) / (fftSize : ℝ))
  (magnitude, freqs)

/-- `rootMeanSquare`. -/
def rootMeanSquare (samples : List ℝ) : ℝ :=
  if samples.length = 0 then 0
  else Real.sqrt ((samples.map (fun v => v * v)).sum / (samples.length : ℝ))

/-- `zeroCrossingRate`: sign changes between consecutive non-zero samples. -/
def zeroCrossingRate (samples : List ℝ) : ℝ :=
  if samples.length ≤ 1 then 0
  else
    let count := ((List.range (samples.length - 1)).filter (fun i =>
      let a := samples.getD i 0
      let b := samples.getD (i + 1) 0
      decide (a ≠ 0) && decide (b ≠ 0) &&
        (decide (0 < a) != decide (0 < b)))).length
    (count : ℝ) / ((samples.length : ℝ) - 1)

/-- `signalVariance`. -/
def signalVariance (samples : List ℝ) : ℝ :=
  if samples.length = 0 then 0
  else
    let mean := samples.sum / (samples.length : ℝ)
    ((samples.map (fun v => (v - mean) * (v - mean))).sum) / (samples.length : ℝ)

/-- `spectralCentroid`. -/
def spectralCentroid (magnitude freqs : List ℝ) : ℝ :=
  let weightedSum := ((List.range magnitude.length).map (fun i =>
    magnitude.getD i 0 * freqs.getD i 0)).sum
  let total := magnitude.sum
  if total = 0 then 0 else weightedSum / total

/-- `spectralBandwidth`. -/
def spectralBandwidth (magnitude freqs : List ℝ) (centroid : ℝ) : ℝ :=
  let variance := ((List.range magnitude.length).map (fun i =>
    magnitude.getD i 0 * (freqs.getD i 0 - centroid) * (freqs.getD i 0 - centroid))).sum
  let total := magnitude.sum
  if total = 0 then 0 else Real.sqrt (variance / total)

/-- `spectralRolloff`: smallest bin frequency at which the cumulative magnitude
reaches `threshold · Σ mag`. -/
def spectralRolloff (magnitude freqs : List ℝ) (threshold : ℝ) : ℝ :=
  if magnitude.length = 0 then 0
  else
    let t := if threshold ≤ 0 ∨ 1 ≤ threshold then 0.85 else threshold
    let total := magnitude.sum
    if total = 0 then freqs.getD (freqs.length - 1) 0
    else
      let target := t * total
      match (List.range magnitude.length).find? (fun i =>
        decide (target ≤ (magnitude.take (i + 1)).sum)) with
      | some i => freqs.getD i 0
      | none => freqs.getD (freqs.length - 1) 0

/-- `spectralFlatness`: geometric over arithmetic mean of `mag + 1e-12`. -/
def spectralFlatness (magnitude : List ℝ) : ℝ :=
  if magnitude.length = 0 then 0
  else
    let eps : ℝ := 1e-12
    let logSum := (magnitude.map (fun m => Real.log (m + eps))).sum
    let geomCount := (magnitude.length : ℝ)
    let arithmetic := (magnitude.map (fun m => m + eps)).sum
    let geoMean := Real.exp (logSum / geomCount)
    let ariMean := arithmetic / geomCount
    if ariMean = 0 then 0 else geoMean / ariMean

/-- `spectralCrestFactor`: peak over mean magnitude. -/
def spectralCrestFactor (magnitude : List ℝ) : ℝ :=
  if magnitude.length = 0 then 0
  else
    let maxVal := magnitude.foldl max (magnitude.getD 0 0)
    let mean := magnitude.sum / (magnitude.length : ℝ)
    if mean = 0 then 0 else maxVal / mean

/-- `spectralEntropy`: normalised Shannon entropy of the power distribution. -/
def spectralEntropy (magnitude : List ℝ) : ℝ :=
  if magnitude.length = 0 then 0
  else
    let powerSum := (magnitude.map (fun m => m * m)).sum
    if powerSum = 0 then 0
    else
      let probabilities := magnitude.map (fun m => (m * m) / powerSum)
      let entropy := -(((probabilities.filter (fun p => decide (0 < p))).map
        (fun p => p * Real.logb 2 p)).sum)
      entropy / Real.logb 2 (magnitude.length : ℝ)

/-- `dominantFrequency`: frequency of the first strictly-largest magnitude
bin. -/
def dominantFrequency (magnitude freqs : List ℝ) : ℝ :=
  if magnitude.length = 0 then 0
  else
    let idx := (List.range magnitude.length).foldl
      (fun best i =>
        if magnitude.getD best 0 < magnitude.getD i 0 then i else best) 0
    freqs.getD idx 0

/-- `temporalCentroid`. -/
def temporalCentroid (samples : List ℝ) (sampleRate : ℤ) : ℝ :=
  if samples.length = 0 ∨ sampleRate ≤ 0 then 0
  else
    let energySum := (samples.map (fun s => s * s)).sum
    let weightedSum := ((List.range samples.length).map (fun i =>
      samples.getD i 0 * samples.getD i 0 * (i : ℝ))).sum
    if energySum = 0 then 0
    else (weightedSum / energySum) / (samples.length : ℝ)

/-- `onsetRate`: upward crossings of `mean + std` of `|x|`, per second, capped
at 20 and normalised by 20. -/
def onsetRate (samples : List ℝ) (sampleRate : ℤ) : ℝ :=
  if samples.length < 2 ∨ sampleRate ≤ 0 then 0
  else
    let absVals := samples.map (fun s => |s|)
    let mean := absVals.sum / (absVals.length : ℝ)
    let variance := (absVals.map (fun v => (v - mean) * (v - mean))).sum
    let std := if 0 < absVals.length then Real.sqrt (variance / (absVals.length : ℝ))
               else 0
    let threshold := mean + std
    let onsetCount := ((List.range (absVals.length - 1)).filter (fun i =>
      decide (absVals.getD i 0 < threshold) &&
        decide (threshold ≤ absVals.getD (i + 1) 0))).length
    let duration := (samples.length : ℝ) / (sampleRate : ℝ)
    if duration ≤ 0 then 0
    else
      let rate := (onsetCount : ℝ) / duration
      let capped := if rate > 20 then 20 else rate
      capped / 20

/-- `amplitudeModulationDepth`: relative variability of `|x|`, capped at 1. -/
def amplitudeModulationDepth (samples : List ℝ) : ℝ :=
  if samples.length = 0 then 0
  else
    let mean := (samples.map (fun s => |s|)).sum / (samples.length : ℝ)
    if mean = 0 then 0
    else
      let variance := (samples.map (fun s => (|s| - mean) * (|s| - mean))).sum
      let std := Real.sqrt (variance / (samples.length : ℝ))
      let depth := std / (mean + 1e-9)
      if depth > 1 then 1 else depth

/-- `spectralSkewness`: third central moment of the magnitude-weighted
frequency distribution, squashed through `tanh`. -/
def spectralSkewness (magnitude freqs : List ℝ) (centroid bandwidth : ℝ) : ℝ :=
  if magnitude.length = 0 ∨ bandwidth = 0 then 0
  else
    let total := magnitude.sum
    let thirdMoment := ((List.range magnitude.length).map (fun i =>
      magnitude.getD i 0 * (freqs.getD i 0 - centroid) * (freqs.getD i 0 - centroid) *
        (freqs.getD i 0 - centroid))).sum
    if total = 0 then 0
    else Real.tanh ((thirdMoment / total) / (bandwidth ^ 3 + 1e-12))

/-- `spectralKurtosis`: fourth central moment relative to `bandwidth⁴`,
normalised by the Gaussian kurtosis 3 and lower-clipped at 0. -/
def spectralKurtosis (magnitude freqs : List ℝ) (centroid bandwidth : ℝ) : ℝ :=
  if magnitude.length = 0 ∨ bandwidth = 0 then 0
  else
    let total := magnitude.sum
    let fourthMoment := ((List.range magnitude.length).map (fun i =>
      magnitude.getD i 0 * (freqs.getD i 0 - centroid) * (freqs.getD i 0 - centroid) *
        (freqs.getD i 0 - centroid) * (freqs.getD i 0 - centroid))).sum
    if total = 0 then 0
    else max 0 (((fourthMoment / total) / (bandwidth ^ 4 + 1e-12)) / 3)

/-- `spectralPeakProminence`: contrast of the top-3 magnitudes against the
mean, clipped to `[0, 1]`. -/
def spectralPeakProminence (magnitude : List ℝ) : ℝ :=
  if magnitude.length = 0 then 0
  else
    let mean := magnitude.sum / (magnitude.length : ℝ)
    if mean = 0 then 0
    else
      let peaks := magnitude.mergeSort (fun a b => decide (a ≤ b))
      let topCount := min 3 magnitude.length
      let topSum := ((List.range topCount).map (fun i =>
        peaks.getD (peaks.length - 1 - i) 0)).sum
      let topAvg := topSum / (topCount : ℝ)
      let prominence := (topAvg - mean) / (topAvg + mean + 1e-9)
      if prominence < 0 then 0
      else if prominence > 1 then 1
      else prominence

/-- The harmonic-search loop of `harmonicFeatures`, from harmonic `h` with the
given fuel (10 harmonics): collects the window-local maximum magnitude of every
counted harmonic, stopping at Nyquist or past the last bin. -/
def harmonicPeaks (magnitude : List ℝ) (f0 : ℝ) (sampleRate : ℤ)
    (freqResolution avgMag : ℝ) (win : ℕ) : ℕ → ℕ → List ℝ
  | 0, _ => []
  | fuel + 1, h =>
    let targetFreq := f0 * (h : ℝ)
    if (sampleRate : ℝ) / 2 ≤ targetFreq then []
    else
      let targetBin := (⌊targetFreq / freqResolution⌋).toNat
      if magnitude.length ≤ targetBin then []
      else
        let startBin := targetBin - win
        let endBin := min (targetBin + win) (magnitude.length - 1)
        let maxMag := ((List.range (endBin + 1 - startBin)).map (fun j =>
          magnitude.getD (startBin + j) 0)).foldl max 0
        if avgMag * 1.5 < maxMag then
          maxMag :: harmonicPeaks magnitude f0 sampleRate freqResolution avgMag win fuel (h + 1)
        else
          harmonicPeaks magnitude f0 sampleRate freqResolution avgMag win fuel (h + 1)

/-- `harmonicFeatures` (feature_extraction.go): harmonic energy considerations of
up to 10 harmonics of the fundamental.  Returns `(harmonic energy share,
normalised harmonic count, normalised harmonic strength)`.  The `freqs`
argument is passed but unused, exactly as in the source. -/
def harmonicFeatures (magnitude _freqs : List ℝ) (fundamentalFreq : ℝ)
    (sampleRate : ℤ) : ℝ × ℝ × ℝ :=
  if magnitude.length = 0 ∨ fundamentalFreq ≤ 0 then (0, 0, 0)
  else
    let totalEnergy := (magnitude.map (fun m => m * m)).sum
    let sumMag := magnitude.sum
    if totalEnergy = 0 then (0, 0, 0)
    else
      let avgMag := sumMag / (magnitude.length : ℝ)
      let freqResolution := (sampleRate : ℝ) / ((magnitude.length : ℝ) * 2)
      let maxPossibleMag := magnitude.foldl max 0
      let tolerance := fundamentalFreq * 0.1
      let sw0 := (⌊tolerance / freqResolution⌋).toNat
      let searchWindowSize := if sw0 < 1 then 1 else if 10 < sw0 then 10 else sw0
      let hm := harmonicPeaks magnitude fundamentalFreq sampleRate freqResolution
        avgMag searchWindowSize 10 1
      let harmonicEnergy := (hm.map (fun m => m * m)).sum
      let energyShare := harmonicEnergy / totalEnergy
      let countRaw := (hm.length : ℝ) / 10
      let countNorm := if 1 < countRaw then 1 else countRaw
      let strength :=
        if 0 < hm.length ∧ 0 < maxPossibleMag then
          (hm.sum / (hm.length : ℝ)) / maxPossibleMag
        else 0
      (energyShare, countNorm, strength)

/-- `ExtractFeatureVector` (feature_extraction.go): the 19-dimensional acoustic
descriptor.  Frequency features keep raw Hz values for the dependent skewness /
kurtosis / harmonic computations and are normalised by the Nyquist frequency
(and crest by 100, kurtosis shifted and scaled) at the end, exactly as in the
source. -/
def ExtractFeatureVector (samples : List ℝ) (sampleRate : ℤ) :
    Except String (List ℝ) :=
  if samples.length = 0 then .error "no samples provided"
  else if sampleRate ≤ 0 then .error "invalid sample rate"
  else
    let energy := rootMeanSquare samples
    let zcr := zeroCrossingRate samples
    let variance := signalVariance samples
    let sf := computeSpectrum samples sampleRate
    let spectrum := sf.1
    let freqs := sf.2
    let centroid := spectralCentroid spectrum freqs
    let bandwidth := spectralBandwidth spectrum freqs centroid
    let rolloff := spectralRolloff spectrum freqs 0.85
    let flatness := spectralFlatness spectrum
    let crest := spectralCrestFactor spectrum
    let entropy := spectralEntropy spectrum
    let dominant := dominantFrequency spectrum freqs
    let temporalCentre := temporalCentroid samples sampleRate
    let onsetRateNorm := onsetRate samples sampleRate
    let amDepth := amplitudeModulationDepth samples
    let skewness := spectralSkewness spectrum freqs centroid bandwidth
    let kurtosis := spectralKurtosis spectrum freqs centroid bandwidth
    let peakProminence := spectralPeakProminence spectrum
    let harm := if 0 < dominant then harmonicFeatures spectrum freqs dominant sampleRate
                else (0, 0, 0)
    let nyquistFreq := (sampleRate : ℝ) / 2
    let centroidN := if 0 < nyquistFreq then clamp01 (centroid / nyquistFreq) else centroid
    let bandwidthN := if 0 < nyquistFreq then clamp01 (bandwidth / nyquistFreq) else bandwidth
    let rolloffN := if 0 < nyquistFreq then clamp01 (rolloff / nyquistFreq) else rolloff
    let dominantN := if 0 < nyquistFreq then clamp01 (dominant / nyquistFreq) else dominant
    let crestN := clamp01 (crest / 100)
    let kurtosisN := clamp01 ((kurtosis + 3) / 13)
    .ok [energy, zcr, centroidN, bandwidthN, rolloffN, flatness, dominantN,
         crestN, entropy, variance, temporalCentre, onsetRateNorm, amDepth,
         skewness, kurtosisN, peakProminence, harm.1, harm.2.1, harm.2.2]

/-! ## Spec-side definitions and concrete inputs used by the claims -/

/-- Modelled from the spec: "compute per-dimension mean and **sample standard
deviation**" (§4.4 Fit) — the sample standard deviation of dimension `i` of a
prototype set, with divisor `n − 1`. -/
def specSampleStddev (prototypes : List Prototype) (i : ℕ) : ℝ :=
  let n : ℝ := prototypes.length
  let mean := ((prototypes.map (fun p => p.features.getD i 0)).sum) / n
  Real.sqrt (((prototypes.map (fun p =>
    (p.features.getD i 0 - mean) ^ 2)).sum) / (n - 1))

/-- Extracts the stored prototype count from an ingest result (0 on error). -/
def okPrototypeCount : Except String (ClassifierState × Prototype) → ℕ
  | .ok r => r.1.prototypes.length
  | .error _ => 0

/-- A 19-dimensional prototype as produced by the hand-crafted feature
extractor (unit L2 norm). -/
def proto19 : Prototype :=
  { id := "p19", label := "alpha", category := "drone", description := ""
    source := "", features := 0.6 :: 0.8 :: List.replicate 17 0, metadata := [] }

/-- A store holding the single 19-dimensional prototype `proto19`. -/
def store19 : ClassifierState :=
  { prototypes := [proto19], k := 5, usingExample := false
    modelPath := "drone/prototypes.json"
    labelCategory := [("alpha", "drone")], featureScaler := none }

/-- A 2048-dimensional (PANNS) prototype. -/
def proto2048 : Prototype :=
  { id := "p2048", label := "alpha", category := "drone", description := ""
    source := "", features := (1 : ℝ) :: List.replicate 2047 0, metadata := [] }

/-- A store holding the single 2048-dimensional prototype `proto2048`. -/
def store2048 : ClassifierState :=
  { prototypes := [proto2048], k := 1, usingExample := false
    modelPath := "drone/prototypes.json"
    labelCategory := [("alpha", "drone")], featureScaler := none }

/-- A 1-dimensional prototype, mismatching every multi-dimensional store. -/
def proto1 : Prototype :=
  { id := "q1", label := "beta", category := "drone", description := ""
    source := "", features := [1], metadata := [] }

/-- One-dimensional prototypes with feature values 0 and 2 (scaler fitting
counterexample). -/
def protoZero : Prototype :=
  { id := "z", label := "alpha", category := "drone", description := ""
    source := "", features := [0], metadata := [] }

/-- See `protoZero`. -/
def protoTwo : Prototype :=
  { id := "t", label := "alpha", category := "drone", description := ""
    source := "", features := [2], metadata := [] }

/-- A tiny store with a single 2-dimensional prototype, for the dimension
handling of `Predict`. -/
def storeDim2 : ClassifierState :=
  { prototypes := [{ id := "p0", label := "alpha", category := "drone"
                     description := "", source := "", features := [1, 0]
                     metadata := [] }]
    k := 1, usingExample := false, modelPath := "m.json"
    labelCategory := [("alpha", "drone")], featureScaler := none }

/-- The concrete waveform of the spectral-skewness counterexample: samples in
`[-1, 1]`, sample rate 4 Hz. -/
def cex8samples : List ℝ := [0, 1, -(1 / 2), 0]


/-! # Theorems -/

/-! ## Basic helper facts -/

theorem clamp01_mem (x : ℝ) : 0 ≤ clamp01 x ∧ clamp01 x ≤ 1 := by
  unfold clamp01
  split_ifs with h1 h2 <;> constructor <;> linarith

theorem NormaliseVector_length (vector : List ℝ) :
    (NormaliseVector vector).length = vector.length := by
  by_cases h : ((vector.map (fun v => v * v)).sum) = 0 <;>
    simp [NormaliseVector, h]

theorem FeatureScaler.transform_length (fs : FeatureScaler) (features : List ℝ) :
    (fs.transform features).length = features.length := by
  unfold FeatureScaler.transform
  split_ifs <;> simp

/-! ## Claim C2 -/

theorem goClamp_eq_min_max (x : ℝ) :
    (if x < (0.5 : ℝ) then (0.5 : ℝ) else if x > 0.9 then 0.9 else x) =
      min (0.9 : ℝ) (max 0.5 x) := by
  rcases lt_or_le x (0.5 : ℝ) with h | h
  · rw [if_pos h, min_def, max_def]
    split_ifs <;> linarith
  · rw [if_neg (not_lt.mpr h)]
    rcases le_or_lt x (0.9 : ℝ) with h2 | h2
    · rw [if_neg (not_lt.mpr h2), min_def, max_def]
      split_ifs <;> linarith
    · rw [if_pos h2, min_def, max_def]
      split_ifs <;> linarith

/-- C2: `AdaptiveThreshold tau snr` adds `0.15` when `snr < 10`, `0.10` when
`10 ≤ snr < 20`, `0.05` when `20 ≤ snr < 30` and `0` when `snr ≥ 30` (the
nested `if` on the right encodes exactly these bands), and clamps the sum to
`[0.5, 0.9]`; in particular SNR `9.999` gets `+0.15`, and the boundary points
`10`, `20`, `30` fall into the lower-adjustment bands. -/
theorem AdaptiveThreshold_bands (tau snrDb : ℝ) :
    AdaptiveThreshold tau snrDb =
      min (0.9 : ℝ) (max 0.5 (tau +
        (if snrDb < 10 then (0.15 : ℝ)
         else if snrDb < 20 then 0.10
         else if snrDb < 30 then 0.05
         else 0))) ∧
    AdaptiveThreshold tau 9.999 = min (0.9 : ℝ) (max 0.5 (tau + 0.15)) ∧
    AdaptiveThreshold tau 10 = min (0.9 : ℝ) (max 0.5 (tau + 0.10)) ∧
    AdaptiveThreshold tau 20 = min (0.9 : ℝ) (max 0.5 (tau + 0.05)) ∧
    AdaptiveThreshold tau 30 = min (0.9 : ℝ) (max 0.5 tau) := by
  have base : ∀ s : ℝ, AdaptiveThreshold tau s =
      min (0.9 : ℝ) (max 0.5 (tau +
        (if s < 10 then (0.15 : ℝ)
         else if s < 20 then 0.10
         else if s < 30 then 0.05
         else 0))) := by
    intro s
    unfold AdaptiveThreshold
    rw [← goClamp_eq_min_max]
    norm_num
  refine ⟨base snrDb, ?_, ?_, ?_, ?_⟩
  · rw [base 9.999]; norm_num
  · rw [base 10]; norm_num
  · rw [base 20]; norm_num
  · rw [base 30]; norm_num

/-! ## Claim C1 -/

/-- C1 counterexample: the claim predicts `is_drone = (top.category ≠ "noise")
∧ (top.confidence ≥ threshold)`, which is `true` for a top prediction of
category `"NOISE"` with confidence `0.9 ≥ 0.5`; but the code compares
categories with `strings.EqualFold`, so `DetermineDroneLikelyWithSNR` returns
`false` on this input. -/
theorem DetermineDroneLikelyWithSNR_claim_counterexample :
    DetermineDroneLikelyWithSNR [upperNoisePred] 0.5 0 = false ∧
    upperNoisePred.category ≠ "noise" ∧
    upperNoisePred.confidence ≥ 0.5 := by
  refine ⟨?_, by decide, by norm_num [upperNoisePred]⟩
  have hfold : goEqualFold upperNoisePred.category "noise" = true := by decide
  simp [DetermineDroneLikelyWithSNR, hfold]

/-- C1 amended: the drone decision is `true` exactly when the prediction list
is non-empty, the top prediction's category is not case-insensitively equal to
`"noise"`, and the top confidence reaches the adjusted threshold (the
SNR-adjusted threshold when `snrDb ≠ 0`, the base threshold when `snrDb = 0`);
in particular an empty list and a noise-categorised top prediction both give
`false`. -/
theorem DetermineDroneLikelyWithSNR_spec (predictions : List Prediction)
    (baseThreshold snrDb : ℝ) :
    DetermineDroneLikelyWithSNR predictions baseThreshold snrDb = true ↔
      ∃ best rest, predictions = best :: rest ∧
        goEqualFold best.category "noise" = false ∧
        (if snrDb = 0.0 then baseThreshold
         else AdaptiveThreshold baseThreshold snrDb) ≤ best.confidence := by
  have hthr : (if snrDb ≠ 0.0 then AdaptiveThreshold baseThreshold snrDb
      else baseThreshold)
      = (if snrDb = 0.0 then baseThreshold
         else AdaptiveThreshold baseThreshold snrDb) := by
    by_cases h : snrDb = 0.0 <;> simp [h]
  cases predictions with
  | nil => simp [DetermineDroneLikelyWithSNR]
  | cons best rest =>
    constructor
    · intro h
      cases hf : goEqualFold best.category "noise" with
      | true => simp [DetermineDroneLikelyWithSNR, hf] at h
      | false =>
        refine ⟨best, rest, rfl, hf, ?_⟩
        rw [← hthr]
        simp only [DetermineDroneLikelyWithSNR, hf, Bool.false_eq_true,
          if_false] at h
        rcases le_or_lt (if snrDb ≠ 0.0 then AdaptiveThreshold baseThreshold snrDb
            else baseThreshold) best.confidence with hge | hlt
        · exact hge
        · rw [if_neg (not_le.mpr hlt)] at h
          exact absurd h (by simp)
    · rintro ⟨b, r, heq, hfold, hge⟩
      injection heq with h1 h2
      subst h1
      simp only [DetermineDroneLikelyWithSNR, hfold, Bool.false_eq_true,
        if_false]
      rw [hthr, if_pos hge]

/-! ## List accumulation lemmas for the scaler fit -/

theorem getD_replicate_zero (fc i : ℕ) : (List.replicate fc (0 : ℝ)).getD i 0 = 0 := by
  rcases lt_or_le i fc with h | h
  · rw [List.getD_eq_getElem _ _ (by simpa using h)]
    simp
  · rw [List.getD_eq_default _ _ (by simpa using h)]

theorem featureWeights_length : featureWeights.length = 2048 := by
  rw [featureWeights]
  exact List.length_replicate 2048 1

theorem error_isOk_eq_false {α : Type} (e : String) :
    (Except.error e : Except String α).isOk = false := rfl

theorem ok_isOk_eq_true {α : Type} (a : α) :
    (Except.ok a : Except String α).isOk = true := rfl

theorem getD_zipWith (f : ℝ → ℝ → ℝ) (a b : List ℝ) (i : ℕ)
    (ha : i < a.length) (hb : i < b.length) :
    (List.zipWith f a b).getD i 0 = f (a.getD i 0) (b.getD i 0) := by
  have hz : i < (List.zipWith f a b).length := by
    rw [List.length_zipWith]; omega
  rw [List.getD_eq_getElem _ _ hz, List.getD_eq_getElem _ _ ha,
    List.getD_eq_getElem _ _ hb, List.getElem_zipWith]

theorem foldl_zipWith_length (f : Prototype → List ℝ) (fc : ℕ) :
    ∀ (protos : List Prototype) (init : List ℝ), init.length = fc →
      (∀ p ∈ protos, (f p).length = fc) →
      (protos.foldl (fun acc p => List.zipWith (· + ·) acc (f p)) init).length = fc := by
  intro protos
  induction protos with
  | nil => intro init h _; simpa using h
  | cons p rest ih =>
    intro init h hall
    simp only [List.foldl_cons]
    apply ih
    · rw [List.length_zipWith, h, hall p (by simp)]; omega
    · intro q hq; exact hall q (by simp [hq])

theorem foldl_zipWith_getD (f : Prototype → List ℝ) (fc : ℕ) :
    ∀ (protos : List Prototype) (init : List ℝ), init.length = fc →
      (∀ p ∈ protos, (f p).length = fc) → ∀ i, i < fc →
      (protos.foldl (fun acc p => List.zipWith (· + ·) acc (f p)) init).getD i 0
        = init.getD i 0 + ((protos.map (fun p => (f p).getD i 0)).sum) := by
  intro protos
  induction protos with
  | nil => intro init _ _ i _; simp
  | cons p rest ih =>
    intro init h hall i hi
    simp only [List.foldl_cons, List.map_cons, List.sum_cons]
    rw [ih (List.zipWith (· + ·) init (f p))
      (by rw [List.length_zipWith, h, hall p (by simp)]; omega)
      (fun q hq => hall q (by simp [hq])) i hi]
    rw [getD_zipWith (· + ·) init (f p) i (by omega) (by rw [hall p (by simp)]; exact hi)]
    ring

/-! ## Claim C9 -/

/-- C9 counterexample: on the two one-dimensional prototypes with feature
values 0 and 2, the fitted scaler stores standard deviation `1` (the population
formula, divisor `n`), while the sample standard deviation named by the claim
is `√2 ≠ 1`. -/
theorem scaler_population_vs_sample_counterexample :
    NewFeatureScalerFromPrototypes [protoZero, protoTwo] =
      Except.ok { mean := [1], stddev := [1] } ∧
    specSampleStddev [protoZero, protoTwo] 0 = Real.sqrt 2 ∧
    Real.sqrt 2 ≠ 1 := by
  have hsqrt2 : Real.sqrt 2 ≠ 1 := by
    intro h
    have h2 := congrArg (fun t => t ^ 2) h
    simp only [Real.sq_sqrt (by norm_num : (0:ℝ) ≤ 2)] at h2
    norm_num at h2
  refine ⟨?_, ?_, hsqrt2⟩
  · show NewFeatureScalerFromPrototypes [protoZero, protoTwo] = _
    simp only [NewFeatureScalerFromPrototypes, protoZero, protoTwo]
    norm_num [List.zipWith, Real.sqrt_one]
  · simp only [specSampleStddev, protoZero, protoTwo]
    norm_num

/-- C9 amended: for a non-empty, dimensionally uniform prototype set with a
positive feature count, the fitted scaler holds the per-dimension arithmetic
mean, and the per-dimension **population** standard deviation (divisor `n`, not
`n − 1`), replaced by `1.0` whenever it falls below `1e-10`. -/
theorem NewFeatureScalerFromPrototypes_spec (p0 : Prototype) (rest : List Prototype)
    (hfc : p0.features.length ≠ 0)
    (huni : ∀ p ∈ p0 :: rest, p.features.length = p0.features.length) :
    ∃ fs, NewFeatureScalerFromPrototypes (p0 :: rest) = Except.ok fs ∧
      fs.mean.length = p0.features.length ∧
      fs.stddev.length = p0.features.length ∧
      (∀ i, i < p0.features.length →
        fs.mean.getD i 0 =
          (((p0 :: rest).map (fun p => p.features.getD i 0)).sum) /
            (((p0 :: rest).length : ℕ) : ℝ)) ∧
      (∀ i, i < p0.features.length →
        fs.stddev.getD i 0 =
          (let m := (((p0 :: rest).map (fun p => p.features.getD i 0)).sum) /
            (((p0 :: rest).length : ℕ) : ℝ)
           let sd := Real.sqrt ((((p0 :: rest).map (fun p =>
             (p.features.getD i 0 - m) * (p.features.getD i 0 - m))).sum) /
               (((p0 :: rest).length : ℕ) : ℝ))
           if sd < 1e-10 then 1 else sd)) := by
  set protos := p0 :: rest with hprotos
  set fc := p0.features.length with hfcdef
  have hany : (protos.any fun p => p.features.length ≠ fc) = false := by
    simp only [List.any_eq_false, decide_eq_true_eq]
    intro p hp
    simp only [ne_eq, huni p hp, not_true_eq_false, not_false_eq_true]
  set n : ℝ := ((protos.length : ℕ) : ℝ) with hn
  set sums := protos.foldl (fun acc p => List.zipWith (· + ·) acc p.features)
    (List.replicate fc 0) with hsums
  set mean := sums.map (· / n) with hmean
  set sqsums := protos.foldl (fun acc p => List.zipWith (· + ·) acc
    (List.zipWith (fun x m => (x - m) * (x - m)) p.features mean))
    (List.replicate fc 0) with hsqsums
  set stddev := sqsums.map (fun s =>
    let sd := Real.sqrt (s / n)
    if sd < 1e-10 then 1 else sd) with hstddev
  have hout : NewFeatureScalerFromPrototypes protos =
      Except.ok { mean := mean, stddev := stddev } := by
    rw [hprotos]
    simp only [NewFeatureScalerFromPrototypes]
    rw [if_neg hfc, if_neg (by rw [← hprotos, hany]; simp)]
  have hsumslen : sums.length = fc :=
    foldl_zipWith_length (fun p => p.features) fc protos _ (by simp) huni
  have hmeanlen : mean.length = fc := by rw [hmean, List.length_map, hsumslen]
  have hsumsgetD : ∀ i, i < fc → sums.getD i 0 =
      (protos.map (fun p => p.features.getD i 0)).sum := by
    intro i hi
    rw [hsums, foldl_zipWith_getD (fun p => p.features) fc protos _ (by simp) huni i hi]
    rw [getD_replicate_zero, zero_add]
  have hmeangetD : ∀ i, i < fc → mean.getD i 0 =
      ((protos.map (fun p => p.features.getD i 0)).sum) / n := by
    intro i hi
    rw [hmean, List.getD_eq_getElem _ _ (by rw [List.length_map, hsumslen]; exact hi),
      List.getElem_map, ← List.getD_eq_getElem _ _ (by rw [hsumslen]; exact hi),
      hsumsgetD i hi]
  have hsqlen : ∀ p ∈ protos,
      (List.zipWith (fun x m => (x - m) * (x - m)) p.features mean).length = fc := by
    intro p hp
    rw [List.length_zipWith, huni p hp, hmeanlen]
    omega
  have hsqsumslen : sqsums.length = fc :=
    foldl_zipWith_length _ fc protos _ (by simp) hsqlen
  have hsqsumsgetD : ∀ i, i < fc → sqsums.getD i 0 =
      (protos.map (fun p =>
        (p.features.getD i 0 - mean.getD i 0) *
          (p.features.getD i 0 - mean.getD i 0))).sum := by
    intro i hi
    rw [hsqsums, foldl_zipWith_getD _ fc protos _ (by simp) hsqlen i hi]
    rw [getD_replicate_zero, zero_add]
    congr 1
    apply List.map_congr_left
    intro p hp
    rw [getD_zipWith _ _ _ i (by rw [huni p hp]; exact hi) (by rw [hmeanlen]; exact hi)]
  refine ⟨{ mean := mean, stddev := stddev }, hout, hmeanlen, ?_, ?_, ?_⟩
  · rw [hstddev, List.length_map, hsqsumslen]
  · intro i hi
    exact hmeangetD i hi
  · intro i hi
    show stddev.getD i 0 = _
    rw [hstddev, List.getD_eq_getElem _ _ (by rw [List.length_map, hsqsumslen]; exact hi),
      List.getElem_map, ← List.getD_eq_getElem _ _ (by rw [hsqsumslen]; exact hi),
      hsqsumsgetD i hi]
    have hm := hmeangetD i hi
    simp only [← hprotos, ← hn, ← hm]

/-- C9 witness: the amended scaler theorem applied to the concrete prototype
pair with feature values 0 and 2. -/
theorem NewFeatureScalerFromPrototypes_spec_witness :
    ∃ fs, NewFeatureScalerFromPrototypes (protoZero :: [protoTwo]) = Except.ok fs ∧
      fs.mean.length = protoZero.features.length ∧
      fs.stddev.length = protoZero.features.length ∧
      (∀ i, i < protoZero.features.length →
        fs.mean.getD i 0 =
          (((protoZero :: [protoTwo]).map (fun p => p.features.getD i 0)).sum) /
            (((protoZero :: [protoTwo]).length : ℕ) : ℝ)) ∧
      (∀ i, i < protoZero.features.length →
        fs.stddev.getD i 0 =
          (let m := (((protoZero :: [protoTwo]).map (fun p => p.features.getD i 0)).sum) /
            (((protoZero :: [protoTwo]).length : ℕ) : ℝ)
           let sd := Real.sqrt ((((protoZero :: [protoTwo]).map (fun p =>
             (p.features.getD i 0 - m) * (p.features.getD i 0 - m))).sum) /
               (((protoZero :: [protoTwo]).length : ℕ) : ℝ))
           if sd < 1e-10 then 1 else sd)) :=
  NewFeatureScalerFromPrototypes_spec protoZero [protoTwo]
    (by simp [protoZero])
    (by intro p hp
        simp only [List.mem_cons, List.mem_singleton] at hp
        rcases hp with rfl | rfl | h
        · rfl
        · rfl
        · simp at h)

/-! ## Claims C3, C6: loader behaviour -/

theorem validatePrototypes_ok_of_panns :
    ∀ (l : List Prototype), (∀ p ∈ l, p.features.length = 2048) →
      (∀ p ∈ l, p.label ≠ "") → validatePrototypes l = Except.ok () := by
  intro l
  induction l with
  | nil => intro _ _; rfl
  | cons p rest ih =>
    intro h1 h2
    have hp := h1 p (by simp)
    have hl := h2 p (by simp)
    simp only [validatePrototypes]
    rw [if_neg (by rw [hp]; omega), if_neg hl,
      if_neg (by rw [hp, featureWeights_length]; omega),
      if_neg (by rw [hp]; simp only [harmonicFeatureCount]; omega)]
    exact ih (fun q hq => h1 q (by simp [hq])) (fun q hq => h2 q (by simp [hq]))

theorem NewClassifierFromData_error (protos : List Prototype) (k : ℕ)
    (path : String) (hk : k ≠ 0) (e : String)
    (hval : validatePrototypes protos = Except.error e) :
    NewClassifierFromData protos k path = Except.error e := by
  simp only [NewClassifierFromData]
  rw [if_neg hk, hval]

theorem NewClassifierFromData_panns (protos : List Prototype) (k : ℕ) (path : String)
    (hk : k ≠ 0) (hdim : ∀ p ∈ protos, p.features.length = 2048)
    (hlabel : ∀ p ∈ protos, p.label ≠ "") :
    ∃ st, NewClassifierFromData protos k path = Except.ok st ∧
      st.prototypes = protos := by
  have hval := validatePrototypes_ok_of_panns protos hdim hlabel
  cases protos with
  | nil =>
    simp only [NewClassifierFromData]
    rw [if_neg hk, hval]
    exact ⟨_, rfl, rfl⟩
  | cons p0 rest =>
    have h0 : p0.features.length = 2048 := hdim p0 (by simp)
    simp only [NewClassifierFromData]
    rw [if_neg hk, hval, if_pos h0]
    exact ⟨_, rfl, rfl⟩

/-- C3 counterexample: saving the store holding the single 19-dimensional
prototype `proto19` and loading the saved file fails outright — the loader
requires every prototype to have exactly `len(featureWeights) = 2048` features
— so the save-then-load round trip does not hold for 19-dimensional stores. -/
theorem load_after_save_19dim_fails :
    proto19.features.length = 19 ∧
    (NewClassifierFromData (SavePrototypesToFile store19) store19.k
      store19.modelPath).isOk = false := by
  have hlen19 : proto19.features.length = 19 := by
    simp only [proto19]
    simp only [List.length_cons, List.length_replicate]
  constructor
  · exact hlen19
  · have hval19 : validatePrototypes [proto19] =
        Except.error ("prototype " ++ proto19.id ++ " has wrong feature count") := by
      simp only [validatePrototypes]
      rw [if_neg (by rw [hlen19]; omega),
        if_neg (by decide),
        if_pos (by rw [hlen19, featureWeights_length]; omega)]
    show (NewClassifierFromData [proto19] store19.k store19.modelPath).isOk = false
    rw [NewClassifierFromData_error [proto19] store19.k store19.modelPath
      (by decide) _ hval19]
    exact error_isOk_eq_false _

/-- C3 amended: for every store whose prototypes are 2048-dimensional (PANNS
embeddings, for which the loader skips scaler fitting) with non-empty labels,
saving and reloading with any positive `k` yields a store with exactly the same
prototype sequence — every resident feature vector unchanged.  For any other
dimensionality (in particular 19) the reload fails with a dimension error. -/
theorem load_after_save_roundtrip_2048 (c : ClassifierState)
    (hk : c.k ≠ 0)
    (hdim : ∀ p ∈ c.prototypes, p.features.length = 2048)
    (hlabel : ∀ p ∈ c.prototypes, p.label ≠ "") :
    ∃ st, NewClassifierFromData (SavePrototypesToFile c) c.k c.modelPath =
      Except.ok st ∧ st.prototypes = c.prototypes :=
  NewClassifierFromData_panns c.prototypes c.k c.modelPath hk hdim hlabel

/-- C3 witness: the round-trip theorem applied to the concrete one-prototype
2048-dimensional store `store2048`. -/
theorem load_after_save_roundtrip_2048_witness :
    ∃ st, NewClassifierFromData (SavePrototypesToFile store2048) store2048.k
      store2048.modelPath = Except.ok st ∧ st.prototypes = store2048.prototypes :=
  load_after_save_roundtrip_2048 store2048
    (by simp [store2048])
    (by intro p hp
        simp only [store2048, List.mem_singleton] at hp
        subst hp
        simp only [proto2048, List.length_cons, List.length_replicate])
    (by intro p hp
        simp only [store2048, List.mem_singleton] at hp
        subst hp
        simp only [proto2048]
        decide)

/-- C6: the loader derives `usingExample` from the suffix `".example"` of the
resolved path, but the fallback path it actually reads is
`<base>.example<ext>` — for the model file `drone/prototypes.json` that is
`drone/prototypes.example.json`, which ends in `".json"`, so the loaded store
reports `usingExample = false` even though the example file was used. -/
theorem usingExample_not_set_on_example_fallback :
    resolveModelPath false "drone/prototypes.json" =
      "drone/prototypes.example.json" ∧
    (NewClassifierFromData [] 5
      (resolveModelPath false "drone/prototypes.json")).toOption.map
      (fun st => st.usingExample) = some false := by
  constructor
  · rfl
  · rfl

/-! ## Claim C5: ingest of mismatched prototypes -/

/-- C5 counterexample: `AddPrototype` accepts the 1-dimensional prototype
`proto1` into the store `storeDim2` whose resident prototypes are
2-dimensional: the call succeeds and the prototype sequence grows to 2, so a
dimension-mismatched upload is *not* rejected. -/
theorem AddPrototype_accepts_mismatched_dim :
    proto1.features.length = 1 ∧
    (∀ p ∈ storeDim2.prototypes, p.features.length = 2) ∧
    (AddPrototype storeDim2 proto1).isOk = true ∧
    okPrototypeCount (AddPrototype storeDim2 proto1) = 2 := by
  refine ⟨rfl, ?_, rfl, rfl⟩
  intro p hp
  simp only [storeDim2, List.mem_singleton] at hp
  subst hp
  rfl

/-- C5 amended: `AddPrototype` rejects exactly the prototypes with an empty
feature vector (leaving the store unchanged, since an error carries no new
state); every prototype with a non-empty feature vector — of any
dimensionality — is scaled, L2-normalised and appended to the store's
prototype sequence. -/
theorem AddPrototype_spec (c : ClassifierState) (proto : Prototype) :
    ((AddPrototype c proto).isOk = true ↔ proto.features ≠ []) ∧
    (proto.features = [] →
      AddPrototype c proto = Except.error "prototype has no features") ∧
    (∀ st p2, AddPrototype c proto = Except.ok (st, p2) →
      st.prototypes = c.prototypes ++ [p2]) := by
  by_cases h : proto.features = []
  · have hlen : proto.features.length = 0 := by simp [h]
    refine ⟨?_, ?_, ?_⟩
    · simp [AddPrototype, hlen, h, error_isOk_eq_false, ok_isOk_eq_true]
    · intro _
      simp [AddPrototype, hlen]
    · intro st p2 habs
      simp [AddPrototype, hlen] at habs
  · have hlen : proto.features.length ≠ 0 := by
      simpa [List.length_eq_zero] using h
    refine ⟨?_, ?_, ?_⟩
    · simp [AddPrototype, hlen, h, error_isOk_eq_false, ok_isOk_eq_true]
    · intro habs
      exact absurd habs h
    · intro st p2 hok
      simp only [AddPrototype, if_neg hlen, Except.ok.injEq, Prod.mk.injEq] at hok
      obtain ⟨hst, hp2⟩ := hok
      rw [← hst, ← hp2]

/-- C5 witness: the amended `AddPrototype` theorem applied to the concrete
store `storeDim2` and the non-empty 1-dimensional prototype `proto1`. -/
theorem AddPrototype_spec_witness :
    (AddPrototype storeDim2 proto1).isOk = true ∧
    (∀ st p2, AddPrototype storeDim2 proto1 = Except.ok (st, p2) →
      st.prototypes = storeDim2.prototypes ++ [p2]) :=
  ⟨(AddPrototype_spec storeDim2 proto1).1.mpr (by simp [proto1]),
   (AddPrototype_spec storeDim2 proto1).2.2⟩

/-! ## Helper lemmas about cosine similarity and the KNN aggregation -/

theorem weightAt_featureWeights (i : ℕ) : weightAt featureWeights i = 1 := by
  unfold weightAt
  rcases lt_or_le i featureWeights.length with h | h
  · rw [if_pos h, List.getD_eq_getElem _ _ h]
    simp only [featureWeights, List.getElem_replicate]
  · rw [if_neg (not_lt.mpr h)]

theorem cosineSimilarity_le_one (a b w : List ℝ) : cosineSimilarity a b w ≤ 1 := by
  unfold cosineSimilarity
  set limit := min a.length b.length
  set f : ℕ → ℝ := fun i => a.getD i 0 * weightAt w i with hf
  set g : ℕ → ℝ := fun i => b.getD i 0 * weightAt w i with hg
  by_cases hz : (∑ i ∈ Finset.range limit, f i * f i) = 0 ∨
      (∑ i ∈ Finset.range limit, g i * g i) = 0
  · rw [if_pos hz]
    norm_num
  · rw [if_neg hz]
    push_neg at hz
    have hfn : (0:ℝ) ≤ ∑ i ∈ Finset.range limit, f i * f i :=
      Finset.sum_nonneg fun i _ => mul_self_nonneg _
    have hgn : (0:ℝ) ≤ ∑ i ∈ Finset.range limit, g i * g i :=
      Finset.sum_nonneg fun i _ => mul_self_nonneg _
    have hfp : 0 < ∑ i ∈ Finset.range limit, f i * f i :=
      lt_of_le_of_ne hfn (Ne.symm hz.1)
    have hgp : 0 < ∑ i ∈ Finset.range limit, g i * g i :=
      lt_of_le_of_ne hgn (Ne.symm hz.2)
    have hden : 0 < Real.sqrt (∑ i ∈ Finset.range limit, f i * f i) *
        Real.sqrt (∑ i ∈ Finset.range limit, g i * g i) :=
      mul_pos (Real.sqrt_pos.mpr hfp) (Real.sqrt_pos.mpr hgp)
    rw [div_le_one hden]
    have hcs := Real.sum_mul_le_sqrt_mul_sqrt (Finset.range limit) f g
    calc ∑ i ∈ Finset.range limit, f i * g i
        ≤ Real.sqrt (∑ i ∈ Finset.range limit, f i ^ 2) *
          Real.sqrt (∑ i ∈ Finset.range limit, g i ^ 2) := hcs
      _ = _ := by
          congr 1 <;> · congr 1; apply Finset.sum_congr rfl; intro i _; ring

/-- Every distance `1 - cosineSimilarity …` is nonnegative, hence every KNN
weight `1 / (d + 1e-9)` is strictly positive. -/
theorem knn_weight_pos (a b w : List ℝ) :
    0 < 1 / ((1 - cosineSimilarity a b w) + 1e-9) := by
  have h := cosineSimilarity_le_one a b w
  have : (0:ℝ) < (1 - cosineSimilarity a b w) + 1e-9 := by
    have h1 : (0:ℝ) ≤ 1 - cosineSimilarity a b w := by linarith
    norm_num
    linarith
  positivity

theorem addNeighbor_weightSum (acc : List LabelScore) (lbl : String)
    (dist weight : ℝ) (ps : PrototypeScore) :
    (((addNeighbor acc lbl dist weight ps).map (fun s => s.weightSum)).sum)
      = ((acc.map (fun s => s.weightSum)).sum) + weight := by
  induction acc with
  | nil => simp [addNeighbor]
  | cons s rest ih =>
    by_cases h : s.label = lbl
    · simp only [addNeighbor, if_pos h, List.map_cons, List.sum_cons]
      ring
    · simp only [addNeighbor, if_neg h, List.map_cons, List.sum_cons, ih]
      ring

theorem addNeighbor_length (acc : List LabelScore) (lbl : String)
    (dist weight : ℝ) (ps : PrototypeScore) :
    acc.length ≤ (addNeighbor acc lbl dist weight ps).length := by
  induction acc with
  | nil => simp [addNeighbor]
  | cons s rest ih =>
    by_cases h : s.label = lbl
    · simp [addNeighbor, if_pos h]
    · simp only [addNeighbor, if_neg h, List.length_cons]
      omega

/-- Elementwise invariants survive `addNeighbor` when the inserted data
satisfies them. -/
theorem addNeighbor_forall (Q : LabelScore → Prop) (acc : List LabelScore)
    (lbl : String) (dist weight : ℝ) (ps : PrototypeScore)
    (hacc : ∀ s ∈ acc, Q s)
    (hnew : Q ⟨lbl, weight, dist, 1, [ps]⟩)
    (hupd : ∀ s, Q s → Q { s with weightSum := s.weightSum + weight
                                  distSum := s.distSum + dist
                                  count := s.count + 1
                                  prototypes := s.prototypes ++ [ps] }) :
    ∀ s ∈ addNeighbor acc lbl dist weight ps, Q s := by
  induction acc with
  | nil =>
    intro s hs
    simp only [addNeighbor, List.mem_singleton] at hs
    subst hs
    exact hnew
  | cons s0 rest ih =>
    intro s hs
    by_cases h : s0.label = lbl
    · simp only [addNeighbor, if_pos h, List.mem_cons] at hs
      rcases hs with rfl | hs
      · exact hupd s0 (hacc s0 (by simp))
      · exact hacc s (by simp [hs])
    · simp only [addNeighbor, if_neg h, List.mem_cons] at hs
      rcases hs with rfl | hs
      · exact hacc s (by simp)
      · exact ih (fun q hq => hacc q (by simp [hq])) s hs

theorem sum_map_div_labelScore (l : List LabelScore) (T : ℝ) :
    ((l.map (fun s => s.weightSum / T)).sum)
      = ((l.map (fun s => s.weightSum)).sum) / T := by
  induction l with
  | nil => simp
  | cons s rest ih => simp [ih, add_div]

/-! ## Predict stage lemmas -/

theorem predictTaken_mem (c : ClassifierState) (scaled : List ℝ) :
    ∀ nb ∈ predictTaken c scaled, ∃ i,
      nb = (i, 1 - cosineSimilarity scaled
        ((c.prototypes.getD i defaultProto).features) featureWeights) := by
  intro nb hnb
  have h1 : nb ∈ (predictDistances c scaled).mergeSort
      (fun x y => decide (x.2 ≤ y.2)) :=
    List.mem_of_mem_take hnb
  have h2 : nb ∈ predictDistances c scaled :=
    (List.mergeSort_perm (predictDistances c scaled) _).mem_iff.mp h1
  simp only [predictDistances, List.mem_map, List.mem_range] at h2
  obtain ⟨i, _, hi⟩ := h2
  exact ⟨i, hi.symm⟩

theorem predictTaken_weight_pos (c : ClassifierState) (scaled : List ℝ) :
    ∀ nb ∈ predictTaken c scaled, 0 < 1 / (nb.2 + 1e-9) := by
  intro nb hnb
  obtain ⟨i, rfl⟩ := predictTaken_mem c scaled nb hnb
  exact knn_weight_pos _ _ _

theorem predictTaken_length (c : ClassifierState) (scaled : List ℝ) :
    (predictTaken c scaled).length = min (predictK c) c.prototypes.length := by
  simp [predictTaken, List.length_take, List.length_mergeSort, predictDistances]

theorem predictK_pos (c : ClassifierState) (hk : 1 ≤ c.k) : 1 ≤ predictK c := by
  unfold predictK
  split_ifs with h
  · exact Nat.le_max_left 1 _
  · exact hk

theorem predictTaken_ne_nil (c : ClassifierState) (scaled : List ℝ)
    (hk : 1 ≤ c.k) (hp : c.prototypes ≠ []) : predictTaken c scaled ≠ [] := by
  have hlen := predictTaken_length c scaled
  intro h
  rw [h] at hlen
  have h1 := predictK_pos c hk
  have h2 : 1 ≤ c.prototypes.length := by
    cases hcp : c.prototypes with
    | nil => exact absurd hcp hp
    | cons a l => simp
  simp only [List.length_nil] at hlen
  omega

theorem predictTotalWeight_pos (c : ClassifierState) (scaled : List ℝ)
    (hk : 1 ≤ c.k) (hp : c.prototypes ≠ []) :
    0 < predictTotalWeight c scaled := by
  unfold predictTotalWeight
  apply List.sum_pos
  · intro w hw
    simp only [List.mem_map] at hw
    obtain ⟨nb, hnb, rfl⟩ := hw
    exact predictTaken_weight_pos c scaled nb hnb
  · simp only [ne_eq, List.map_eq_nil_iff]
    exact predictTaken_ne_nil c scaled hk hp

theorem foldl_predictStep_weightSum (c : ClassifierState) :
    ∀ (taken : List (ℕ × ℝ)) (acc : List LabelScore),
    (((taken.foldl (predictStep c) acc).map (fun s => s.weightSum)).sum)
      = ((acc.map (fun s => s.weightSum)).sum)
        + ((taken.map (fun nb => 1 / (nb.2 + 1e-9))).sum) := by
  intro taken
  induction taken with
  | nil => intro acc; simp
  | cons nb rest ih =>
    intro acc
    simp only [List.foldl_cons, ih, List.map_cons, List.sum_cons]
    simp only [predictStep]
    rw [addNeighbor_weightSum]
    ring

theorem predictScores_weightSum (c : ClassifierState) (scaled : List ℝ) :
    ((predictScores c scaled).map (fun s => s.weightSum)).sum
      = predictTotalWeight c scaled := by
  unfold predictScores predictTotalWeight
  rw [foldl_predictStep_weightSum]
  simp

theorem foldl_predictStep_length (c : ClassifierState) :
    ∀ (taken : List (ℕ × ℝ)) (acc : List LabelScore),
      acc.length ≤ (taken.foldl (predictStep c) acc).length := by
  intro taken
  induction taken with
  | nil => intro acc; simp
  | cons nb rest ih =>
    intro acc
    simp only [List.foldl_cons]
    calc acc.length ≤ (predictStep c acc nb).length := by
          simp only [predictStep]
          exact addNeighbor_length acc _ _ _ _
      _ ≤ _ := ih _

theorem predictScores_ne_nil (c : ClassifierState) (scaled : List ℝ)
    (hk : 1 ≤ c.k) (hp : c.prototypes ≠ []) : predictScores c scaled ≠ [] := by
  have htaken := predictTaken_ne_nil c scaled hk hp
  unfold predictScores
  cases htk : predictTaken c scaled with
  | nil => exact absurd htk htaken
  | cons nb rest =>
    simp only [List.foldl_cons]
    have h1 : 1 ≤ (predictStep c [] nb).length := by
      simp [predictStep, addNeighbor]
    have h2 := foldl_predictStep_length c rest (predictStep c [] nb)
    intro h
    rw [h] at h2
    simp only [List.length_nil, Nat.le_zero] at h2
    omega

/-- Elementwise invariants over a fold, given a step that preserves them for
good inputs. -/
theorem foldl_forall_of_step {α β : Type} (step : List α → β → List α)
    (P : α → Prop) (good : β → Prop)
    (hstep : ∀ acc b, good b → (∀ s ∈ acc, P s) → ∀ s ∈ step acc b, P s) :
    ∀ (l : List β) (acc : List α), (∀ b ∈ l, good b) → (∀ s ∈ acc, P s) →
      ∀ s ∈ l.foldl step acc, P s := by
  intro l
  induction l with
  | nil => intro acc _ hacc; simpa using hacc
  | cons b rest ih =>
    intro acc hgood hacc
    simp only [List.foldl_cons]
    exact ih _ (fun x hx => hgood x (by simp [hx]))
      (hstep acc b (hgood b (by simp)) hacc)

/-! ## Claim C7 -/

/-- C7: for a non-empty query against a non-empty store with `k ≥ 1` (every
store built by the loader satisfies both), `Predict` succeeds with a non-empty
prediction list whose confidences sum to exactly 1 — hence to 1 within `1e-6`.
(With at least one prototype every inverse-distance weight is positive, so the
total neighbour weight is nonzero.) -/
theorem Predict_confidence_sum (c : ClassifierState) (features : List ℝ)
    (hk : 1 ≤ c.k) (hp : c.prototypes ≠ []) (hf : features ≠ []) :
    ∃ preds, Predict c features = Except.ok preds ∧ preds ≠ [] ∧
      ((preds.map (fun p => p.confidence)).sum = 1 ∧
        |((preds.map (fun p => p.confidence)).sum) - 1| ≤ 1e-6) := by
  have hflen : features.length ≠ 0 := by
    simpa [List.length_eq_zero] using hf
  have hplen : c.prototypes.length ≠ 0 := by
    simpa [List.length_eq_zero] using hp
  have htw : 0 < predictTotalWeight c (predictScaled c features) :=
    predictTotalWeight_pos c (predictScaled c features) hk hp
  have hsum : ((predictPredictions c (predictScaled c features)).map
      (fun p => p.confidence)).sum = 1 := by
    have hcond : (0 < predictTotalWeight c (predictScaled c features)) = True :=
      eq_true htw
    simp only [predictPredictions, List.map_map, Function.comp_def, hcond,
      if_true]
    rw [sum_map_div_labelScore, predictScores_weightSum,
      div_self (ne_of_gt htw)]
  have hperm : ((predictPredictions c (predictScaled c features)).mergeSort
      (fun p q => predLess p q)).Perm
      (predictPredictions c (predictScaled c features)) :=
    List.mergeSort_perm _ _
  have hsortedsum : (((predictPredictions c (predictScaled c features)).mergeSort
      (fun p q => predLess p q)).map (fun p => p.confidence)).sum = 1 := by
    rw [(hperm.map (fun p => p.confidence)).sum_eq, hsum]
  refine ⟨(predictPredictions c (predictScaled c features)).mergeSort
    (fun p q => predLess p q), ?_, ?_, hsortedsum, by rw [hsortedsum]; norm_num⟩
  · simp only [Predict, if_neg hflen, if_neg hplen, if_neg (ne_of_gt htw)]
  · have hsc := predictScores_ne_nil c (predictScaled c features) hk hp
    intro heq
    have hlen := congrArg List.length heq
    rw [List.length_mergeSort] at hlen
    simp only [predictPredictions, List.length_map, List.length_nil] at hlen
    exact hsc (List.length_eq_zero.mp hlen)

/-- C7 witness: the confidence-sum theorem applied to the concrete store
`storeDim2` and the query `[1, 0]`. -/
theorem Predict_confidence_sum_witness :
    ∃ preds, Predict storeDim2 [1, 0] = Except.ok preds ∧ preds ≠ [] ∧
      ((preds.map (fun p => p.confidence)).sum = 1 ∧
        |((preds.map (fun p => p.confidence)).sum) - 1| ≤ 1e-6) :=
  Predict_confidence_sum storeDim2 [1, 0] (by decide) (by simp [storeDim2])
    (by simp)

/-! ## Claim C4 -/

theorem Predict_isOk_eq (c : ClassifierState) (features : List ℝ) :
    (Predict c features).isOk = !features.isEmpty := by
  by_cases h : features.length = 0
  · have hnil : features = [] := List.length_eq_zero.mp h
    subst hnil
    simp [Predict, error_isOk_eq_false]
  · have hne : features.isEmpty = false := by
      cases features with
      | nil => simp at h
      | cons a l => rfl
    rw [hne, Bool.not_false]
    simp only [Predict, if_neg h]
    split_ifs <;> rfl

/-- C4 counterexample: the store `storeDim2` expects 2-dimensional features,
yet `Predict` on the 1-dimensional query `[1]` succeeds instead of failing
with a dimension-mismatch error, and `cosineSimilarity` silently compares the
vectors over their common prefix (here similarity 1 against the prototype
`[1, 0]`). -/
theorem Predict_no_dim_check_counterexample :
    (∀ p ∈ storeDim2.prototypes, p.features.length = 2) ∧
    (Predict storeDim2 [1]).isOk = true ∧
    cosineSimilarity [1] [1, 0] featureWeights = 1 := by
  refine ⟨?_, ?_, ?_⟩
  · intro p hp
    simp only [storeDim2, List.mem_singleton] at hp
    subst hp
    rfl
  · rw [Predict_isOk_eq]
    rfl
  · unfold cosineSimilarity
    have hw := weightAt_featureWeights 0
    simp only [List.length_cons, List.length_nil, List.length_singleton]
    norm_num [Finset.sum_range_one, hw, Real.sqrt_one]

/-- C4 amended: `Predict` errors only on the empty query — for every store and
every non-empty query of any dimensionality it returns a prediction list (no
`DimensionMismatch` error exists); and the cosine similarity underlying it
coerces the two vectors to their common prefix of length
`min (len a) (len b)`. -/
theorem Predict_accepts_any_dim (c : ClassifierState) (features : List ℝ) :
    (Predict c features).isOk = !features.isEmpty ∧
    ∀ a b : List ℝ, cosineSimilarity a b featureWeights =
      cosineSimilarity (a.take (min a.length b.length))
        (b.take (min a.length b.length)) featureWeights := by
  refine ⟨Predict_isOk_eq c features, ?_⟩
  intro a b
  simp only [cosineSimilarity]
  have hlen : min (a.take (min a.length b.length)).length
      (b.take (min a.length b.length)).length = min a.length b.length := by
    simp only [List.length_take]
    omega
  rw [hlen]
  have hgetD : ∀ (l : List ℝ) (i : ℕ), i < min a.length b.length →
      (l.take (min a.length b.length)).getD i 0 = l.getD i 0 := by
    intro l i hi
    rcases lt_or_le i l.length with hl | hl
    · rw [List.getD_eq_getElem _ _ (by simp [List.length_take]; omega),
        List.getD_eq_getElem _ _ hl, List.getElem_take]
    · rw [List.getD_eq_default _ _ (by simp [List.length_take]; omega),
        List.getD_eq_default _ _ hl]
  have hsums : ∀ f : ℝ → ℝ → ℝ,
      (∑ i ∈ Finset.range (min a.length b.length),
        f ((a.take (min a.length b.length)).getD i 0 * weightAt featureWeights i)
          ((b.take (min a.length b.length)).getD i 0 * weightAt featureWeights i))
      = ∑ i ∈ Finset.range (min a.length b.length),
        f (a.getD i 0 * weightAt featureWeights i)
          (b.getD i 0 * weightAt featureWeights i) := by
    intro f
    apply Finset.sum_congr rfl
    intro i hi
    rw [Finset.mem_range] at hi
    rw [hgetD a i hi, hgetD b i hi]
  rw [hsums (fun x y => x * y), hsums (fun x y => x * x), hsums (fun x y => y * y)]

/-! ## Claim C10 -/

theorem cosineSimilarity_zero_left (a b w : List ℝ) (hzero : ∀ x ∈ a, x = 0) :
    cosineSimilarity a b w = 0 := by
  simp only [cosineSimilarity]
  have hA : (∑ i ∈ Finset.range (min a.length b.length),
      (a.getD i 0 * weightAt w i) * (a.getD i 0 * weightAt w i)) = 0 := by
    apply Finset.sum_eq_zero
    intro i hi
    rw [Finset.mem_range] at hi
    have hia : i < a.length := lt_of_lt_of_le hi (min_le_left _ _)
    have h0 : a.getD i 0 = 0 := by
      rw [List.getD_eq_getElem _ _ hia]
      exact hzero _ (List.getElem_mem hia)
    rw [h0]
    ring
  rw [if_pos (Or.inl hA)]

/-- C10: `cosineSimilarity` is total on zero vectors — it returns 0 instead of
dividing by zero — and `Predict` on an all-zero query against any non-empty
store (stores built by the loader or by ingest have no scaler and `k ≥ 1`)
returns a well-formed prediction list in which every per-prototype distance is
exactly 1, every weight is the finite positive number `1/(1 + 1e-9)`, every
average distance is 1, and every confidence lies in `(0, 1]`; in the real-
valued model no NaN or infinity can arise since the zero-norm guard takes the
division branch only for nonzero norms. -/
theorem Predict_zero_query_safe (c : ClassifierState) (features : List ℝ)
    (hscaler : c.featureScaler = none) (hk : 1 ≤ c.k) (hp : c.prototypes ≠ [])
    (hf : features ≠ []) (hzero : ∀ x ∈ features, x = 0) :
    (∀ b : List ℝ, cosineSimilarity features b featureWeights = 0) ∧
    ∃ preds, Predict c features = Except.ok preds ∧ preds ≠ [] ∧
      ∀ p ∈ preds, p.averageDist = 1 ∧ 0 < p.confidence ∧ p.confidence ≤ 1 ∧
        ∀ ps ∈ p.topPrototypes, ps.distance = 1 ∧ ps.weight = 1 / (1 + 1e-9) := by
  have hsim : ∀ b, cosineSimilarity features b featureWeights = 0 := fun b =>
    cosineSimilarity_zero_left features b featureWeights hzero
  have hscaled : predictScaled c features = features := by
    simp [predictScaled, hscaler]
  have hflen : features.length ≠ 0 := by
    simpa [List.length_eq_zero] using hf
  have hplen : c.prototypes.length ≠ 0 := by
    simpa [List.length_eq_zero] using hp
  have htw : 0 < predictTotalWeight c (predictScaled c features) :=
    predictTotalWeight_pos c (predictScaled c features) hk hp
  have htaken1 : ∀ nb ∈ predictTaken c (predictScaled c features),
      nb.2 = (1 : ℝ) := by
    intro nb hnb
    obtain ⟨i, rfl⟩ := predictTaken_mem c _ nb hnb
    show 1 - cosineSimilarity (predictScaled c features) _ featureWeights = 1
    rw [hscaled, hsim]
    norm_num
  have hw0 : (0:ℝ) < 1 / (1 + 1e-9) := by norm_num
  have hQ : ∀ s ∈ predictScores c (predictScaled c features),
      s.weightSum = (s.count : ℝ) * (1 / (1 + 1e-9)) ∧
      s.distSum = (s.count : ℝ) ∧ 1 ≤ s.count ∧
      ∀ ps ∈ s.prototypes, ps.distance = 1 ∧ ps.weight = 1 / (1 + 1e-9) := by
    unfold predictScores
    refine foldl_forall_of_step (predictStep c)
      (fun s => s.weightSum = (s.count : ℝ) * (1 / (1 + 1e-9)) ∧
        s.distSum = (s.count : ℝ) ∧ 1 ≤ s.count ∧
        ∀ ps ∈ s.prototypes, ps.distance = 1 ∧ ps.weight = 1 / (1 + 1e-9))
      (fun nb => nb.2 = (1:ℝ)) ?_ _ _ htaken1 (by intro s hs; simp at hs)
    intro acc nb hnb hacc s hs
    simp only [predictStep, hnb] at hs
    apply addNeighbor_forall _ acc _ _ _ _ hacc ?_ ?_ _ hs
    · refine ⟨by norm_num, by norm_num, le_refl 1, ?_⟩
      intro ps hps
      simp only [List.mem_singleton] at hps
      subst hps
      exact ⟨rfl, rfl⟩
    · intro s hQs
      obtain ⟨hw, hd, hc, hprotos⟩ := hQs
      refine ⟨?_, ?_, by show 1 ≤ s.count + 1; omega, ?_⟩
      · show s.weightSum + 1 / (1 + 1e-9) = ((s.count + 1 : ℕ) : ℝ) * (1 / (1 + 1e-9))
        rw [hw]
        push_cast
        ring
      · show s.distSum + 1 = ((s.count + 1 : ℕ) : ℝ)
        rw [hd]
        push_cast
        ring
      · intro ps hps
        simp only [List.mem_append, List.mem_singleton] at hps
        rcases hps with hps | rfl
        · exact hprotos ps hps
        · exact ⟨rfl, rfl⟩
  have hTsum := predictScores_weightSum c (predictScaled c features)
  refine ⟨hsim, (predictPredictions c (predictScaled c features)).mergeSort
    (fun p q => predLess p q), ?_, ?_, ?_⟩
  · simp only [Predict, if_neg hflen, if_neg hplen, if_neg (ne_of_gt htw)]
  · have hsc := predictScores_ne_nil c (predictScaled c features) hk hp
    intro heq
    have hlen := congrArg List.length heq
    rw [List.length_mergeSort] at hlen
    simp only [predictPredictions, List.length_map, List.length_nil] at hlen
    exact hsc (List.length_eq_zero.mp hlen)
  · intro p hpmem
    have hpmem2 : p ∈ predictPredictions c (predictScaled c features) :=
      (List.mergeSort_perm _ _).mem_iff.mp hpmem
    simp only [predictPredictions, List.mem_map] at hpmem2
    obtain ⟨s, hs, rfl⟩ := hpmem2
    obtain ⟨hw, hd, hc, hprotos⟩ := hQ s hs
    have hcount : (0:ℝ) < (s.count : ℝ) := by
      exact_mod_cast Nat.lt_of_lt_of_le Nat.zero_lt_one hc
    refine ⟨?_, ?_, ?_, hprotos⟩
    · show (if 0 < s.count then s.distSum / (s.count : ℝ) else 0) = 1
      rw [if_pos (by omega), hd, div_self (ne_of_gt hcount)]
    · show 0 < (if 0 < predictTotalWeight c (predictScaled c features) then
        s.weightSum / predictTotalWeight c (predictScaled c features) else 0)
      rw [if_pos htw]
      apply div_pos _ htw
      rw [hw]
      exact mul_pos hcount hw0
    · show (if 0 < predictTotalWeight c (predictScaled c features) then
        s.weightSum / predictTotalWeight c (predictScaled c features) else 0) ≤ 1
      rw [if_pos htw, div_le_one htw, ← hTsum]
      apply List.single_le_sum
      · intro x hx
        simp only [List.mem_map] at hx
        obtain ⟨t, ht, rfl⟩ := hx
        obtain ⟨hwt, _, hct, _⟩ := hQ t ht
        rw [hwt]
        positivity
      · exact List.mem_map_of_mem _ hs

/-- C10 witness: the zero-query safety theorem applied to the concrete store
`storeDim2` and the all-zero query `[0, 0]`. -/
theorem Predict_zero_query_safe_witness :
    (∀ b : List ℝ, cosineSimilarity [0, 0] b featureWeights = 0) ∧
    ∃ preds, Predict storeDim2 [0, 0] = Except.ok preds ∧ preds ≠ [] ∧
      ∀ p ∈ preds, p.averageDist = 1 ∧ 0 < p.confidence ∧ p.confidence ≤ 1 ∧
        ∀ ps ∈ p.topPrototypes, ps.distance = 1 ∧ ps.weight = 1 / (1 + 1e-9) :=
  Predict_zero_query_safe storeDim2 [0, 0] rfl (by decide)
    (by simp [storeDim2]) (by simp) (by intro x hx; simpa using hx)

/-! ## Feature range lemmas (Claim C8) -/

theorem tanh_bounds (x : ℝ) : -1 < Real.tanh x ∧ Real.tanh x < 1 := by
  have hc := Real.cosh_pos x
  have hsq := Real.cosh_sq x
  have habs : |Real.sinh x| < Real.cosh x := by
    nlinarith [abs_nonneg (Real.sinh x), sq_abs (Real.sinh x)]
  rw [Real.tanh_eq_sinh_div_cosh]
  obtain ⟨h1, h2⟩ := abs_lt.mp habs
  constructor
  · rw [lt_div_iff₀ hc]
    linarith
  · rw [div_lt_one hc]
    exact h2

theorem spectralSkewness_bounds (m f : List ℝ) (c bw : ℝ) :
    -1 < spectralSkewness m f c bw ∧ spectralSkewness m f c bw < 1 := by
  simp only [spectralSkewness]
  split_ifs
  · norm_num
  · norm_num
  · exact tanh_bounds _

theorem capped_rate_mem (r : ℝ) (hr : 0 ≤ r) :
    0 ≤ (if r > 20 then (20:ℝ) else r) / 20 ∧
    (if r > 20 then (20:ℝ) else r) / 20 ≤ 1 := by
  split_ifs with h
  · norm_num
  · constructor
    · positivity
    · rw [div_le_one (by norm_num : (0:ℝ) < 20)]
      push_neg at h
      exact h

theorem onsetRate_mem (s : List ℝ) (sr : ℤ) :
    0 ≤ onsetRate s sr ∧ onsetRate s sr ≤ 1 := by
  simp only [onsetRate]
  by_cases h1 : (s.length < 2 ∨ sr ≤ 0)
  · rw [if_pos h1]
    norm_num
  · rw [if_neg h1]
    by_cases h2 : ((s.length : ℝ)) / ((sr : ℝ)) ≤ 0
    · rw [if_pos h2]
      norm_num
    · rw [if_neg h2]
      push_neg at h2
      apply capped_rate_mem
      exact div_nonneg (Nat.cast_nonneg _) h2.le

theorem amplitudeModulationDepth_mem (s : List ℝ) :
    0 ≤ amplitudeModulationDepth s ∧ amplitudeModulationDepth s ≤ 1 := by
  have hmean : 0 ≤ (s.map (fun x => |x|)).sum / ((s.length : ℝ)) := by
    apply div_nonneg _ (by positivity)
    apply List.sum_nonneg
    intro x hx
    simp only [List.mem_map] at hx
    obtain ⟨y, _, rfl⟩ := hx
    exact abs_nonneg y
  simp only [amplitudeModulationDepth]
  split_ifs with h1 h2 h3
  · norm_num
  · norm_num
  · norm_num
  · push_neg at h3
    refine ⟨?_, h3⟩
    apply div_nonneg (Real.sqrt_nonneg _)
    linarith

theorem spectralPeakProminence_mem (m : List ℝ) :
    0 ≤ spectralPeakProminence m ∧ spectralPeakProminence m ≤ 1 := by
  simp only [spectralPeakProminence]
  split_ifs with h1 h2 h3 h4
  · norm_num
  · norm_num
  · norm_num
  · norm_num
  · push_neg at h3 h4
    exact ⟨h3, h4⟩

theorem list_map_sum_eq_range (f : ℝ → ℝ) (l : List ℝ) :
    (l.map f).sum = ∑ i ∈ Finset.range l.length, f (l.getD i 0) := by
  induction l with
  | nil => simp
  | cons a t ih =>
    rw [List.map_cons, List.sum_cons, List.length_cons, Finset.sum_range_succ']
    simp only [List.getD_cons_succ, List.getD_cons_zero, ih]
    ring

theorem spectralFlatness_mem (m : List ℝ) (hm : ∀ x ∈ m, 0 ≤ x) :
    0 ≤ spectralFlatness m ∧ spectralFlatness m ≤ 1 := by
  simp only [spectralFlatness]
  split_ifs with h0 hza
  · norm_num
  · norm_num
  · -- geometric mean over arithmetic mean of the positive values  m + 1e-12
    set n : ℝ := ((m.length : ℕ) : ℝ) with hn
    have hnpos : 0 < n := by
      rw [hn]
      exact_mod_cast Nat.pos_of_ne_zero h0
    have hval : ∀ i, 0 ≤ m.getD i 0 := by
      intro i
      rcases lt_or_le i m.length with h | h
      · rw [List.getD_eq_getElem _ _ h]
        exact hm _ (List.getElem_mem h)
      · rw [List.getD_eq_default _ _ h]
    have hvpos : ∀ i, (0:ℝ) < m.getD i 0 + 1e-12 := by
      intro i
      have h := hval i
      have he : (0:ℝ) < 1e-12 := by norm_num
      linarith
    have hari : (m.map (fun x => x + 1e-12)).sum / n =
        ∑ i ∈ Finset.range m.length, (1 / n) * (m.getD i 0 + 1e-12) := by
      rw [list_map_sum_eq_range (fun x => x + 1e-12) m, Finset.sum_div]
      apply Finset.sum_congr rfl
      intro i _
      ring
    have hgeo : (m.map (fun x => Real.log (x + 1e-12))).sum / n =
        ∑ i ∈ Finset.range m.length, (1 / n) • Real.log (m.getD i 0 + 1e-12) := by
      rw [list_map_sum_eq_range (fun x => Real.log (x + 1e-12)) m, Finset.sum_div]
      apply Finset.sum_congr rfl
      intro i _
      simp [smul_eq_mul]
      ring
    have haripos : 0 < (m.map (fun x => x + 1e-12)).sum / n := by
      apply div_pos _ hnpos
      apply List.sum_pos
      · intro x hx
        simp only [List.mem_map] at hx
        obtain ⟨y, hy, rfl⟩ := hx
        have h := hm y hy
        have he : (0:ℝ) < 1e-12 := by norm_num
        linarith
      · simp only [ne_eq, List.map_eq_nil_iff]
        intro hnil
        exact h0 (by simp [hnil])
    constructor
    · positivity
    · rw [div_le_one haripos]
      have hjensen := convexOn_exp.map_sum_le
        (t := Finset.range m.length)
        (w := fun _ => 1 / n) (p := fun i => Real.log (m.getD i 0 + 1e-12))
        (fun i _ => by positivity)
        (by
          rw [Finset.sum_const, Finset.card_range]
          rw [hn]
          field_simp)
        (fun i _ => Set.mem_univ _)
      calc Real.exp ((m.map (fun x => Real.log (x + 1e-12))).sum / n)
          = Real.exp (∑ i ∈ Finset.range m.length,
              (1 / n) • Real.log (m.getD i 0 + 1e-12)) := by rw [hgeo]
        _ ≤ ∑ i ∈ Finset.range m.length,
              (1 / n) • Real.exp (Real.log (m.getD i 0 + 1e-12)) := hjensen
        _ = (m.map (fun x => x + 1e-12)).sum / n := by
            rw [hari]
            apply Finset.sum_congr rfl
            intro i _
            rw [smul_eq_mul, Real.exp_log (hvpos i)]

theorem computeSpectrum_nonneg (s : List ℝ) (r : ℤ) :
    ∀ x ∈ (computeSpectrum s r).1, 0 ≤ x := by
  intro x hx
  simp only [computeSpectrum, List.mem_map] at hx
  obtain ⟨i, _, rfl⟩ := hx
  exact AbsoluteValue.nonneg Complex.abs _

/-- C8 amended: for every non-empty waveform and positive sample rate,
`ExtractFeatureVector` succeeds with a 19-dimensional vector in which the
(1-based) components 3–8 and 12, 13, 15, 16 — spectral centroid, bandwidth,
rolloff, flatness, dominant frequency, crest, onset rate, AM depth, kurtosis,
peak prominence — lie in `[0, 1]`, while component 14 (spectral skewness) lies
only in the open interval `(-1, 1)` (it is a `tanh` and is negative whenever
the spectrum is skewed below its centroid), not in `[0, 1]` as claimed. -/
theorem ExtractFeatureVector_ranges (samples : List ℝ) (sampleRate : ℤ)
    (hs : samples ≠ []) (hsr : 0 < sampleRate) :
    ∃ v, ExtractFeatureVector samples sampleRate = Except.ok v ∧
      v.length = 19 ∧
      (∀ i ∈ ([2, 3, 4, 5, 6, 7, 11, 12, 14, 15] : List ℕ),
        0 ≤ v.getD i 0 ∧ v.getD i 0 ≤ 1) ∧
      (-1 < v.getD 13 0 ∧ v.getD 13 0 < 1) := by
  have hlen : samples.length ≠ 0 := by
    simpa [List.length_eq_zero] using hs
  have hsrneg : ¬ sampleRate ≤ 0 := not_le.mpr hsr
  have hnyq : (0:ℝ) < (sampleRate : ℝ) / 2 := by
    have : (0:ℝ) < (sampleRate : ℝ) := by exact_mod_cast hsr
    linarith
  simp only [ExtractFeatureVector, if_neg hlen, if_neg hsrneg]
  refine ⟨_, rfl, by simp, ?_, ?_⟩
  · intro i hi
    have hmag := computeSpectrum_nonneg samples sampleRate
    simp only [List.mem_cons, List.not_mem_nil, or_false] at hi
    rcases hi with rfl | rfl | rfl | rfl | rfl | rfl | rfl | rfl | rfl | rfl
    all_goals simp only [List.getD_cons_succ, List.getD_cons_zero]
    · rw [if_pos hnyq]; exact clamp01_mem _
    · rw [if_pos hnyq]; exact clamp01_mem _
    · rw [if_pos hnyq]; exact clamp01_mem _
    · exact spectralFlatness_mem _ hmag
    · rw [if_pos hnyq]; exact clamp01_mem _
    · exact clamp01_mem _
    · exact onsetRate_mem _ _
    · exact amplitudeModulationDepth_mem _
    · exact clamp01_mem _
    · exact spectralPeakProminence_mem _
  · simp only [List.getD_cons_succ, List.getD_cons_zero]
    exact spectralSkewness_bounds _ _ _ _

/-- C8 witness: the amended range theorem at the concrete waveform
`[0, 1, -1/2, 0]` with sample rate 4. -/
theorem ExtractFeatureVector_ranges_witness :
    ∃ v, ExtractFeatureVector cex8samples 4 = Except.ok v ∧
      v.length = 19 ∧
      (∀ i ∈ ([2, 3, 4, 5, 6, 7, 11, 12, 14, 15] : List ℕ),
        0 ≤ v.getD i 0 ∧ v.getD i 0 ≤ 1) ∧
      (-1 < v.getD 13 0 ∧ v.getD 13 0 < 1) :=
  ExtractFeatureVector_ranges cex8samples 4 (by simp [cex8samples]) (by norm_num)

/-! ## Claim C8: concrete skewness counterexample -/

theorem cos_two_pi_div_three : Real.cos (2 * Real.pi / 3) = -(1/2) := by
  rw [show (2 * Real.pi / 3 : ℝ) = Real.pi - Real.pi / 3 by ring, Real.cos_pi_sub,
    Real.cos_pi_div_three]

theorem cos_four_pi_div_three : Real.cos (2 * Real.pi * 2 / 3) = -(1/2) := by
  rw [show (2 * Real.pi * 2 / 3 : ℝ) = -(2 * Real.pi / 3) + 2 * Real.pi by ring,
    Real.cos_add_two_pi, Real.cos_neg, cos_two_pi_div_three]

theorem hann_cex8 : applyHannWindow [0, 1, -(1/2), 0] = [0, 3/4, -(3/8), 0] := by
  simp only [applyHannWindow]
  rw [if_neg (by norm_num)]
  simp only [List.mapIdx_cons, List.mapIdx_nil]
  norm_num [cos_two_pi_div_three, cos_four_pi_div_three]

theorem twiddle_2_0 : twiddle 2 0 = ⟨1, 0⟩ := by
  simp only [twiddle]
  norm_num

theorem twiddle_4_0 : twiddle 4 0 = ⟨1, 0⟩ := by
  simp only [twiddle]
  norm_num

theorem twiddle_4_1 : twiddle 4 1 = ⟨0, -1⟩ := by
  simp only [twiddle]
  rw [show (-2 * Real.pi * ((1:ℕ):ℝ) / ((4:ℕ):ℝ) : ℝ) = -(Real.pi / 2) by push_cast; ring]
  rw [Real.cos_neg, Real.sin_neg, Real.cos_pi_div_two, Real.sin_pi_div_two]

theorem fft_cex8 : FFT [0, 3/4, -(3/8), 0] =
    [⟨3/8, 0⟩, ⟨3/8, -(3/4)⟩, ⟨-(9/8), 0⟩, ⟨3/8, 3/4⟩] := by
  simp only [FFT]
  norm_num [recursiveFFTAux, evenIdx, oddIdx, twiddle_2_0, twiddle_4_0, twiddle_4_1,
    List.range_succ, Complex.ext_iff]

theorem computeSpectrum_cex8 :
    computeSpectrum [0, 1, -(1/2), 0] 4 = ([3/8, 3/8 * Real.sqrt 5], [0, 1]) := by
  have hnext : nextPowerOfTwo 4 = 4 := by decide
  have habs1 : Complex.abs ⟨3/8, 0⟩ = 3/8 := by
    rw [Complex.abs_apply, Complex.normSq_mk]
    rw [show (3/8 * (3/8) + 0 * 0 : ℝ) = (3/8)^2 by norm_num,
      Real.sqrt_sq (by norm_num)]
  have habs2 : Complex.abs ⟨3/8, -(3/4)⟩ = 3/8 * Real.sqrt 5 := by
    rw [Complex.abs_apply, Complex.normSq_mk]
    rw [show (3/8 * (3/8) + -(3/4) * -(3/4) : ℝ) = (3/8)^2 * 5 by norm_num,
      Real.sqrt_mul (by positivity), Real.sqrt_sq (by norm_num)]
  have hlen : List.length [(0:ℝ), 1, -(1/2), 0] = 4 := rfl
  simp only [computeSpectrum, hlen, hnext]
  norm_num [hann_cex8, fft_cex8, List.range_succ, habs1, habs2]

theorem tanh_neg_of_neg (x : ℝ) (h : x < 0) : Real.tanh x < 0 := by
  rw [Real.tanh_eq_sinh_div_cosh]
  exact div_neg_of_neg_of_pos (Real.sinh_neg_iff.mpr h) (Real.cosh_pos x)

theorem centroid_cex8 :
    spectralCentroid [3/8, 3/8 * Real.sqrt 5] [0, 1] =
      Real.sqrt 5 / (1 + Real.sqrt 5) := by
  have hs5 : 0 < Real.sqrt 5 := Real.sqrt_pos.mpr (by norm_num)
  have htpos : (0:ℝ) < 3/8 + 3/8 * Real.sqrt 5 := by nlinarith
  simp only [spectralCentroid]
  rw [if_neg ?hne]
  case hne =>
    simp only [List.sum_cons, List.sum_nil]
    intro h
    nlinarith
  norm_num [List.range_succ]
  rw [div_eq_div_iff (by nlinarith) (by nlinarith)]
  ring

theorem skew_cex8_neg :
    spectralSkewness [3/8, 3/8 * Real.sqrt 5] [0, 1]
      (spectralCentroid [3/8, 3/8 * Real.sqrt 5] [0, 1])
      (spectralBandwidth [3/8, 3/8 * Real.sqrt 5] [0, 1]
        (spectralCentroid [3/8, 3/8 * Real.sqrt 5] [0, 1])) < 0 := by
  have hs5 : 0 < Real.sqrt 5 := Real.sqrt_pos.mpr (by norm_num)
  have hsq : Real.sqrt 5 ^ 2 = 5 := Real.sq_sqrt (by norm_num)
  have ht : (0:ℝ) < 1 + Real.sqrt 5 := by linarith
  have htpos : (0:ℝ) < 3/8 + 3/8 * Real.sqrt 5 := by nlinarith
  have hc := centroid_cex8
  have h1c : 1 - Real.sqrt 5 / (1 + Real.sqrt 5) = 1 / (1 + Real.sqrt 5) := by
    field_simp
  have hcpos : 0 < Real.sqrt 5 / (1 + Real.sqrt 5) := by positivity
  have h1cpos : (0:ℝ) < 1 / (1 + Real.sqrt 5) := by positivity
  have hbw : 0 < spectralBandwidth [3/8, 3/8 * Real.sqrt 5] [0, 1]
      (spectralCentroid [3/8, 3/8 * Real.sqrt 5] [0, 1]) := by
    simp only [spectralBandwidth]
    rw [if_neg ?hne2]
    case hne2 =>
      simp only [List.sum_cons, List.sum_nil]
      intro h
      nlinarith
    apply Real.sqrt_pos.mpr
    apply div_pos ?hvar ?htot
    case htot =>
      simp only [List.sum_cons, List.sum_nil]
      nlinarith
    case hvar =>
      rw [hc]
      norm_num [List.range_succ]
      nlinarith [sq_nonneg (Real.sqrt 5 / (1 + Real.sqrt 5)),
        mul_pos (mul_pos (by norm_num : (0:ℝ) < 3/8) hs5)
          (mul_pos h1cpos h1cpos)]
  have hM3 : ((List.range (List.length [3/8, 3/8 * Real.sqrt 5])).map (fun i =>
      ([3/8, 3/8 * Real.sqrt 5] : List ℝ).getD i 0 *
        (([0, 1] : List ℝ).getD i 0 - Real.sqrt 5 / (1 + Real.sqrt 5)) *
        (([0, 1] : List ℝ).getD i 0 - Real.sqrt 5 / (1 + Real.sqrt 5)) *
        (([0, 1] : List ℝ).getD i 0 - Real.sqrt 5 / (1 + Real.sqrt 5)))).sum < 0 := by
    norm_num [List.range_succ]
    rw [h1c]
    have hcube : Real.sqrt 5 ^ 3 = 5 * Real.sqrt 5 := by
      rw [pow_succ, hsq]
    have hpos : 0 < Real.sqrt 5 * (1 / (1 + Real.sqrt 5)) ^ 3 := by positivity
    have hexp : Real.sqrt 5 / (1 + Real.sqrt 5) = Real.sqrt 5 * (1 / (1 + Real.sqrt 5)) := by
      ring
    rw [hexp]
    nlinarith [hpos, hcube]
  simp only [spectralSkewness]
  rw [if_neg ?hg]
  case hg =>
    push_neg
    exact ⟨by norm_num, ne_of_gt hbw⟩
  rw [if_neg ?hg2]
  case hg2 =>
    simp only [List.sum_cons, List.sum_nil]
    intro h
    nlinarith
  apply tanh_neg_of_neg
  apply div_neg_of_neg_of_pos
  · apply div_neg_of_neg_of_pos
    · rw [hc]
      exact hM3
    · simp only [List.sum_cons, List.sum_nil]
      nlinarith
  · have := Real.sqrt_nonneg ((((List.range (List.length [3/8, 3/8 * Real.sqrt 5])).map (fun i =>
      (0:ℝ))).sum))
    positivity

/-- C8 counterexample: for the waveform `[0, 1, -1/2, 0]` (samples within
`[-1, 1]`) at sample rate 4, `ExtractFeatureVector` succeeds and its 14th
component (0-based index 13, the spectral skewness) is strictly negative —
the spectrum `[3/8, (3/8)√5]` over the bins `{0 Hz, 1 Hz}` is skewed below its
centroid, and `tanh` preserves the sign — so this component does not lie in
`[0, 1]` as the claim states. -/
theorem ExtractFeatureVector_skewness_counterexample :
    (∀ x ∈ cex8samples, -1 ≤ x ∧ x ≤ 1) ∧ (0:ℤ) < 4 ∧
    ∃ v, ExtractFeatureVector cex8samples 4 = Except.ok v ∧
      v.length = 19 ∧ v.getD 13 0 < 0 := by
  refine ⟨?_, by norm_num, ?_⟩
  · intro x hx
    simp only [cex8samples, List.mem_cons, List.not_mem_nil, or_false] at hx
    rcases hx with rfl | rfl | rfl | rfl <;> norm_num
  · have hlen : cex8samples.length ≠ 0 := by simp [cex8samples]
    have hsr : ¬ (4:ℤ) ≤ 0 := by norm_num
    simp only [ExtractFeatureVector, if_neg hlen, if_neg hsr]
    refine ⟨_, rfl, by simp, ?_⟩
    simp only [List.getD_cons_succ, List.getD_cons_zero]
    have hcs : computeSpectrum cex8samples 4 = ([3/8, 3/8 * Real.sqrt 5], [0, 1]) := by
      rw [show cex8samples = [0, 1, -(1/2), 0] from rfl]
      exact computeSpectrum_cex8
    rw [hcs]
    exact skew_cex8_neg

end DroneDetect
